import Mathlib

/-!
Verification of the synchronization engine of the hiro_toggl repository.

The development shallowly embeds the relevant parts of
`backend/toggl_client/enhanced_client.py`, `backend/app/services/sync_service.py`
and `backend/app/api/sync.py` as executable Lean definitions and proves the
spec's testable properties against them.

Modelling conventions used throughout:
- wall-clock instants and calendar dates are rationals / integers
  (`date.today()` becomes an abstract `today : Int` day number; `timedelta(days=k)`
  becomes integer subtraction);
- `time.sleep(x)` advances the modelled clock by exactly `x` (the idealised
  "controllable clock" of the spec's spacing property);
- SQLAlchemy rows become records in Lean lists; a session commit is list
  append / in-place functional update; queries filter those lists.
  The session is created with `autoflush=False` (backend/app/models/database.py),
  so a query issued during a sync run sees the rows committed before the run,
  not the pending `session.add` objects; the upsert model reflects this;
- the remote Toggl API is an explicit oracle argument (a function from the
  request parameters to a result), so "no remote call is made" is expressible
  as independence of the result from the oracle.
-/

namespace TogglSync

/-! ## Rate-governed transport: the 1 req/sec throttle

Embeds `EnhancedTogglClient._throttle_request` (enhanced_client.py lines
245-254).  The state carries the modelled wall clock `now` and the instance
field `_last_request_time`.  `time.time()` reads `now`; `time.sleep(x)`
advances `now` by `x`. -/

structure ThrottleState where
  now : ℚ
  last : ℚ
  deriving Repr, DecidableEq

/-- `_throttle_request`: if less than 1 second elapsed since the recorded
start of the previous request, sleep for the remainder, then record
`_last_request_time = time.time()`.  The function always returns (the call
is blocked, never dropped). -/
def throttle_request (s : ThrottleState) : ThrottleState :=
  let time_since_last_request := s.now - s.last
  let now2 := if time_since_last_request < 1 then s.now + (1 - time_since_last_request) else s.now
  { now := now2, last := now2 }

/-- One `_make_request` call as seen by the throttle: the environment lets
`d` seconds pass since the previous activity, then the client throttles and
issues the request at the resulting instant. -/
def throttleStep (s : ThrottleState) (d : ℚ) : ThrottleState :=
  throttle_request { now := s.now + d, last := s.last }

/-- The sequence of request start instants produced by consecutive
`_make_request` calls through one client instance, given the list of
environment delays preceding each call. -/
def throttleRun : ThrottleState → List ℚ → List ℚ
  | _, [] => []
  | s, d :: ds =>
    let s2 := throttleStep s d
    s2.now :: throttleRun s2 ds

theorem throttleStep_now_ge (s : ThrottleState) (d : ℚ) :
    s.last + 1 ≤ (throttleStep s d).now := by
  unfold throttleStep throttle_request
  dsimp only
  split
  · ring_nf
    linarith
  · rename_i h
    push_neg at h
    linarith

theorem throttleStep_last_eq (s : ThrottleState) (d : ℚ) :
    (throttleStep s d).last = (throttleStep s d).now := by
  unfold throttleStep throttle_request
  dsimp only

theorem throttleRun_length (s : ThrottleState) (ds : List ℚ) :
    (throttleRun s ds).length = ds.length := by
  induction ds generalizing s with
  | nil => simp [throttleRun]
  | cons d ds ih => simpa [throttleRun] using ih (throttleStep s d)

theorem throttleRun_chain (s : ThrottleState) (ds : List ℚ)
    (h : ∀ d ∈ ds, 0 ≤ d) :
    List.Chain' (fun a b => a + 1 ≤ b) (throttleRun s ds) := by
  induction ds generalizing s with
  | nil => simp [throttleRun]
  | cons d ds ih =>
    have hd : 0 ≤ d := h d (List.mem_cons_self _ _)
    have hrest : ∀ e ∈ ds, 0 ≤ e := fun e he => h e (List.mem_cons_of_mem _ he)
    unfold throttleRun
    dsimp only
    apply List.chain'_cons'.mpr
    constructor
    · intro y hy
      cases ds with
      | nil => simp [throttleRun] at hy
      | cons e es =>
        unfold throttleRun at hy
        dsimp only at hy
        rw [List.head?_cons, Option.mem_def, Option.some_inj] at hy
        subst hy
        have := throttleStep_now_ge (throttleStep s d) e
        rw [throttleStep_last_eq s d] at this
        linarith
    · exact ih (throttleStep s d) hrest

theorem chain'_head_getLast_ge {l : List ℚ} (hl : l ≠ [])
    (h : List.Chain' (fun a b => a + 1 ≤ b) l) :
    l.headI + (l.length - 1 : ℕ) ≤ l.getLast hl := by
  induction l with
  | nil => exact absurd rfl hl
  | cons a t ih =>
    cases t with
    | nil => simp
    | cons b u =>
      have hchain : List.Chain' (fun a b => a + 1 ≤ b) (b :: u) := h.tail
      have hab : a + 1 ≤ b := (List.chain'_cons.mp h).1
      have hne : (b :: u) ≠ [] := by simp
      have := ih hne hchain
      rw [List.getLast_cons hne]
      simp only [List.headI, List.length_cons] at this ⊢
      have h1 : (u.length + 1 + 1 - 1 : ℕ) = u.length + 1 := by omega
      have h2 : (u.length + 1 - 1 : ℕ) = u.length := by omega
      rw [h1]
      rw [h2] at this
      push_cast
      linarith

/-- C1. Throttling invariant: every `_make_request` call first blocks until at
least 1 second has elapsed since the recorded start of the previous call
through the same client instance, so (a) consecutive request instants are at
least 1 second apart, and (b) any `N` consecutive calls span at least `N - 1`
seconds end-to-end.  The environment delays between calls are arbitrary
non-negative rationals; no call is ever dropped (`throttleRun` yields one
instant per requested call). -/
theorem throttle_spacing_invariant (s : ThrottleState) (ds : List ℚ)
    (h : ∀ d ∈ ds, 0 ≤ d) :
    List.Chain' (fun a b => a + 1 ≤ b) (throttleRun s ds) ∧
    (throttleRun s ds).length = ds.length ∧
    (∀ hne : throttleRun s ds ≠ [],
      (throttleRun s ds).headI + ((throttleRun s ds).length - 1 : ℕ) ≤
        (throttleRun s ds).getLast hne) := by
  refine ⟨throttleRun_chain s ds h, throttleRun_length s ds, ?_⟩
  intro hne
  exact chain'_head_getLast_ge hne (throttleRun_chain s ds h)

/-- C1 witness: three calls with delays 0, ½ and 2 seconds from a fresh
client (`_last_request_time = 0`) satisfy the spacing conclusion. -/
theorem throttle_spacing_invariant_witness :
    (∀ d ∈ [(0 : ℚ), 1/2, 2], 0 ≤ d) ∧
    (List.Chain' (fun a b => a + 1 ≤ b)
        (throttleRun ⟨100, 0⟩ [(0 : ℚ), 1/2, 2]) ∧
      (throttleRun ⟨100, 0⟩ [(0 : ℚ), 1/2, 2]).length = 3 ∧
      (∀ hne : throttleRun ⟨100, 0⟩ [(0 : ℚ), 1/2, 2] ≠ [],
        (throttleRun ⟨100, 0⟩ [(0 : ℚ), 1/2, 2]).headI +
            ((throttleRun ⟨100, 0⟩ [(0 : ℚ), 1/2, 2]).length - 1 : ℕ) ≤
          (throttleRun ⟨100, 0⟩ [(0 : ℚ), 1/2, 2]).getLast hne)) := by
  have hd : ∀ d ∈ [(0 : ℚ), 1/2, 2], 0 ≤ d := by
    intro d hdm
    fin_cases hdm <;> norm_num
  exact ⟨hd, throttle_spacing_invariant ⟨100, 0⟩ [(0 : ℚ), 1/2, 2] hd⟩

/-! ## Credential sanitisation

Embeds `_sanitize_credentials` (enhanced_client.py lines 155-167): first
`re.sub(r'[a-fA-F0-9]{32,64}', '[API_TOKEN]', text)`, then the email
pattern `\b[A-Za-z0-9._%+-]+@[A-Za-z0-9.-]+\.[A-Z|a-z]{2,}\b` is replaced
by `[EMAIL]`.  The substitution is implemented with the regex engine's
leftmost, greedy-with-backtracking semantics; the fuel argument is the
input length (each step consumes at least one character). -/

def isHexDigitChar (c : Char) : Bool :=
  ('a' ≤ c ∧ c ≤ 'f') ∨ ('A' ≤ c ∧ c ≤ 'F') ∨ ('0' ≤ c ∧ c ≤ '9')

def hexRunLen : List Char → Nat
  | [] => 0
  | c :: r => if isHexDigitChar c then hexRunLen r + 1 else 0

/-- One pass of `re.sub(r'[a-fA-F0-9]{32,64}', '[API_TOKEN]', ·)`:
a maximal hex run of length at least 32 is consumed greedily (at most 64
characters per match) and replaced; shorter runs are kept. -/
def subHexAux : Nat → List Char → List Char
  | 0, cs => cs
  | _ + 1, [] => []
  | fuel + 1, c :: rest =>
    if isHexDigitChar c then
      let n := hexRunLen (c :: rest)
      if 32 ≤ n then
        let k := min n 64
        "[API_TOKEN]".data ++ subHexAux fuel (List.drop k (c :: rest))
      else
        List.take n (c :: rest) ++ subHexAux fuel (List.drop n (c :: rest))
    else
      c :: subHexAux fuel rest

def isWordChar (c : Char) : Bool := c.isAlpha ∨ c.isDigit ∨ c = '_'

def isLocalChar (c : Char) : Bool := c.isAlphanum ∨ c ∈ ['.', '_', '%', '+', '-']

def isDomainChar (c : Char) : Bool := c.isAlphanum ∨ c = '.' ∨ c = '-'

def isTldChar (c : Char) : Bool := c.isAlpha ∨ c = '|'

/-- `\b` between two (optional) characters. -/
def wordBoundary (a b : Option Char) : Bool :=
  xor (a.elim false isWordChar) (b.elim false isWordChar)

/-- Backtracking search for `[A-Z|a-z]{2,}\b` starting right after the dot:
try the candidate length `m` (initially the maximal run), require `m ≥ 2`
and a word boundary after the match, otherwise shrink. -/
def tldSearch (cs : List Char) : Nat → Option Nat
  | 0 => none
  | 1 => none
  | m + 2 =>
    let k := m + 2
    if wordBoundary (cs.get? (k - 1)) (cs.get? k) then some k
    else tldSearch cs (m + 1)

/-- Backtracking search for `[A-Za-z0-9.-]+\.[A-Z|a-z]{2,}\b` in `cs`
(the characters after the `@`): the `+` group consumes `k` characters,
tried greedily from the maximal domain run downwards; the next character
must be a literal dot. -/
def domainSearch (cs : List Char) : Nat → Option Nat
  | 0 => none
  | k + 1 =>
    if cs.get? (k + 1) = some '.' then
      match tldSearch (cs.drop (k + 2)) ((cs.drop (k + 2)).takeWhile isTldChar).length with
      | some m => some (k + 2 + m)
      | none => domainSearch cs k
    else domainSearch cs k

/-- Try the full email pattern at the current position (`prev` is the
character before it, for the leading `\b`); returns the match length. -/
def tryEmailAt (prev : Option Char) (cs : List Char) : Option Nat :=
  if wordBoundary prev cs.head? then
    let localRun := cs.takeWhile isLocalChar
    if localRun.length = 0 then none
    else
      match cs.drop localRun.length with
      | '@' :: rest =>
        match domainSearch rest (rest.takeWhile isDomainChar).length with
        | some d => some (localRun.length + 1 + d)
        | none => none
      | _ => none
  else none

/-- One pass of the email `re.sub`: scan left to right, replace each
non-overlapping leftmost match with `[EMAIL]` and resume after it. -/
def subEmailAux : Nat → Option Char → List Char → List Char
  | 0, _, cs => cs
  | _ + 1, _, [] => []
  | fuel + 1, prev, c :: rest =>
    match tryEmailAt prev (c :: rest) with
    | some n =>
      "[EMAIL]".data ++
        subEmailAux fuel ((List.take n (c :: rest)).getLast?) (List.drop n (c :: rest))
    | none => c :: subEmailAux fuel (some c) rest

/-- `_sanitize_credentials` (enhanced_client.py lines 155-167). -/
def sanitize_credentials (text : String) : String :=
  if text = "" then text
  else
    let afterHex := subHexAux text.data.length text.data
    String.mk (subEmailAux afterHex.length none afterHex)

/-! ## Rate-governed transport: status handling and retry

Embeds `_make_request` (enhanced_client.py lines 256-355) and its
`backoff.on_exception(backoff.expo, (TogglRateLimitError,
requests.exceptions.ConnectionError), max_tries=3, max_time=300)` decorator.
A single attempt's interaction with `requests` is one `ReqOutcome`; the
exception hierarchy of the module is the inductive `PyExc`
(`togglAPIError` is the base `TogglAPIError` class, the others its
subclasses, plus the raw `requests.exceptions.ConnectionError`).
The decorator retries only when the raised exception is an instance of
`TogglRateLimitError` or `requests.exceptions.ConnectionError`;
the backoff delays themselves (expo with the 300-second ceiling) do not
influence which outcomes are retried and are not modelled. -/

inductive ReqOutcome where
  | resp (status : Nat) (text : String) (hasContent : Bool) (jsonOk : Bool)
  | connectionError (msg : String)
  | requestError (msg : String)
  deriving Repr, DecidableEq

inductive PyExc where
  | togglRateLimitError (msg : String) (status : Option Nat) (text : Option String)
  | togglAuthenticationError (msg : String) (status : Option Nat) (text : Option String)
  | togglPaymentRequiredError (msg : String) (status : Option Nat) (text : Option String)
  | togglEndpointGoneError (msg : String) (status : Option Nat) (text : Option String)
  | togglAPIError (msg : String) (status : Option Nat) (text : Option String)
  | requestsConnectionError (msg : String)
  deriving Repr, DecidableEq

/-- The body of `_make_request` for one attempt (enhanced_client.py lines
278-355): the status-code dispatch, the wrapping of
`requests.exceptions.RequestException` (which includes `ConnectionError`)
into a plain `TogglAPIError`, and the JSON decode failure case. -/
def makeRequestOnce (endpoint : String) (o : ReqOutcome) : Except PyExc Unit :=
  match o with
  | .resp status text hasContent jsonOk =>
    if status = 429 then
      .error (.togglRateLimitError "Rate limit exceeded. Please retry after a delay."
        (some status) (some text))
    else if status = 401 ∨ status = 403 then
      .error (.togglAuthenticationError
        ("Authentication failed (HTTP " ++ toString status ++ ")")
        (some status) (some (sanitize_credentials text)))
    else if status = 402 then
      .error (.togglPaymentRequiredError "Payment required. Please upgrade your workspace plan."
        (some status) (some text))
    else if status = 410 then
      .error (.togglEndpointGoneError
        ("Endpoint " ++ endpoint ++ " is no longer available (HTTP 410)")
        (some status) (some text))
    else if 400 ≤ status ∧ status < 500 then
      .error (.togglAPIError ("Client error (HTTP " ++ toString status ++ ")")
        (some status) (some (sanitize_credentials text)))
    else if 500 ≤ status then
      .error (.togglAPIError ("Server error (HTTP " ++ toString status ++ ")")
        (some status) (some (sanitize_credentials text)))
    else if hasContent = false then .ok ()
    else if jsonOk then .ok ()
    else .error (.togglAPIError "Invalid JSON response: decode failure" none none)
  | .connectionError m =>
    .error (.togglAPIError ("Request failed: " ++ sanitize_credentials m) none none)
  | .requestError m =>
    .error (.togglAPIError ("Request failed: " ++ sanitize_credentials m) none none)

/-- `isinstance(e, (TogglRateLimitError, requests.exceptions.ConnectionError))`,
the retry predicate of the `backoff.on_exception` decorator. -/
def backoffRetryable : PyExc → Bool
  | .togglRateLimitError _ _ _ => true
  | .requestsConnectionError _ => true
  | _ => false

/-- The retry loop of `backoff.on_exception` with `max_tries`: the pair is
(number of attempts made, final result); `outcomes i` is what the `i`-th
attempt observes on the wire. -/
def backoffRun (endpoint : String) (outcomes : Nat → ReqOutcome) :
    Nat → Nat → Nat × Except PyExc Unit
  | i, 0 => (i, .error (.togglAPIError "no attempts allowed" none none))
  | i, triesLeft + 1 =>
    match makeRequestOnce endpoint (outcomes i) with
    | .ok v => (i + 1, .ok v)
    | .error e =>
      if backoffRetryable e ∧ triesLeft ≠ 0 then
        backoffRun endpoint outcomes (i + 1) triesLeft
      else (i + 1, .error e)

/-- `_make_request` with its decorator (`max_tries=3`). -/
def make_request (endpoint : String) (outcomes : Nat → ReqOutcome) :
    Nat × Except PyExc Unit :=
  backoffRun endpoint outcomes 0 3

/-- The `response_text` attribute attached to a raised exception. -/
def excText : PyExc → Option String
  | .togglRateLimitError _ _ t => t
  | .togglAuthenticationError _ _ t => t
  | .togglPaymentRequiredError _ _ t => t
  | .togglEndpointGoneError _ _ t => t
  | .togglAPIError _ _ t => t
  | .requestsConnectionError _ => none

def resultText : Except PyExc Unit → Option String
  | .ok _ => none
  | .error e => excText e

/-- C5. Retry policy, evaluated on the code.  The claim (and the source's
own comments at enhanced_client.py lines 320 and 346) says 5xx and network
failures are retried with backoff; but the 5xx branch raises the base
`TogglAPIError`, and `requests` exceptions are wrapped into `TogglAPIError`
before the decorator sees them, while the decorator only retries
`TogglRateLimitError` and `requests.exceptions.ConnectionError`.  Hence an
HTTP 500 response and a network `ConnectionError` are surfaced after a
single attempt, whereas HTTP 429 is retried to the 3-attempt bound and
401 propagates immediately. -/
theorem retry_policy_on_code :
    make_request "workspaces" (fun _ => .resp 500 "boom" true true) =
      (1, .error (.togglAPIError "Server error (HTTP 500)" (some 500) (some "boom"))) ∧
    make_request "workspaces" (fun _ => .connectionError "connection reset") =
      (1, .error (.togglAPIError "Request failed: connection reset" none none)) ∧
    make_request "workspaces" (fun _ => .resp 429 "slow down" true true) =
      (3, .error (.togglRateLimitError "Rate limit exceeded. Please retry after a delay."
        (some 429) (some "slow down"))) ∧
    make_request "workspaces"
        (fun i => if i = 0 then .resp 429 "slow down" true true else .resp 200 "{}" true true) =
      (2, .ok ()) ∧
    make_request "workspaces" (fun _ => .resp 401 "denied" true true) =
      (1, .error (.togglAuthenticationError "Authentication failed (HTTP 401)"
        (some 401) (some "denied"))) := by
  refine ⟨rfl, rfl, rfl, rfl, rfl⟩

def hexLeakText : String := "token aaaaaaaaaaaaaaaaaaaaaaaaaaaaaaaa"

/-- C9 counterexample: a 429 response whose body contains a 32-character
hex-looking token is surfaced with its raw `response.text` attached — the
`TogglRateLimitError` branch (enhanced_client.py lines 287-291) does not
call `_sanitize_credentials`, so the token is not replaced by the
placeholder even though sanitisation would have replaced it. -/
theorem credential_scrub_429_counterexample :
    resultText (makeRequestOnce "me" (.resp 429 hexLeakText true true)) = some hexLeakText ∧
    sanitize_credentials hexLeakText = "token [API_TOKEN]" ∧
    hexLeakText ≠ "token [API_TOKEN]" := by
  refine ⟨rfl, ?_, by decide⟩
  rfl

/-- C9 (amended). Credential scrubbing is applied on the 401/403 branch,
the generic 4xx branch and the 5xx branch — there the attached response
text is exactly `_sanitize_credentials` of the raw text — while the
429, 402 and 410 branches attach the raw response text unscrubbed. -/
theorem credential_scrub_branch_behavior (endpoint : String) (status : Nat)
    (text : String) (hasContent jsonOk : Bool) :
    ((status = 401 ∨ status = 403 ∨
        (400 ≤ status ∧ status < 500 ∧ status ≠ 401 ∧ status ≠ 402 ∧
          status ≠ 403 ∧ status ≠ 410 ∧ status ≠ 429) ∨
        500 ≤ status) →
      resultText (makeRequestOnce endpoint (.resp status text hasContent jsonOk)) =
        some (sanitize_credentials text)) ∧
    ((status = 429 ∨ status = 402 ∨ status = 410) →
      resultText (makeRequestOnce endpoint (.resp status text hasContent jsonOk)) =
        some text) := by
  constructor
  · intro h
    unfold makeRequestOnce
    dsimp only
    split_ifs <;> first | rfl | omega
  · intro h
    unfold makeRequestOnce
    dsimp only
    split_ifs <;> first | rfl | omega

/-- C9 witness: the theorem applied at a 5xx response carrying a
hex-looking token, and at a 402 response. -/
theorem credential_scrub_branch_behavior_witness :
    resultText (makeRequestOnce "me"
        (.resp 500 "key aaaaaaaaaaaaaaaaaaaaaaaaaaaaaaaa" true true)) =
      some (sanitize_credentials "key aaaaaaaaaaaaaaaaaaaaaaaaaaaaaaaa") ∧
    sanitize_credentials "key aaaaaaaaaaaaaaaaaaaaaaaaaaaaaaaa" = "key [API_TOKEN]" ∧
    resultText (makeRequestOnce "me" (.resp 402 "raw body" true true)) = some "raw body" := by
  refine ⟨(credential_scrub_branch_behavior "me" 500
      "key aaaaaaaaaaaaaaaaaaaaaaaaaaaaaaaa" true true).1 (by omega), rfl,
    (credential_scrub_branch_behavior "me" 402 "raw body" true true).2 (by omega)⟩

/-! ## Sync service: data model

Embeds the `SyncLog` ORM row (backend/app/models/models.py lines 148-166)
and the orchestration logic of `SyncService` (sync_service.py).  Calendar
dates (`date`) are integer day numbers, `datetime.utcnow()` timestamps are
a caller-supplied integer `now`; `created_at`/`updated_at` audit stamps
are dropped as no claim mentions them.  The remote Toggl API is the
`Remote` oracle: each accessor either yields the record counts the upsert
produced or raises with a message. -/

structure SLog where
  workspace_id : Int
  sync_type : String
  status : String
  start_time : Int
  records_processed : Nat
  records_added : Nat
  records_updated : Nat
  error_message : Option String
  date_range_start : Option Int
  date_range_end : Option Int
  deriving Repr, DecidableEq

structure Counts where
  processed : Nat
  added : Nat
  updated : Nat
  deriving Repr, DecidableEq

structure Remote where
  clientsR : Except String Counts
  projectsR : Except String Counts
  membersR : Except String Counts
  timeEntriesR : Int → Int → Except String Counts

/-! ## Rate-budget estimation

Embeds `SyncService._validate_rate_limits` (sync_service.py lines 26-74). -/

def base_calls (sync_type : String) : Nat :=
  if sync_type = "clients" then 1
  else if sync_type = "projects" then 1
  else if sync_type = "members" then 1
  else if sync_type = "time_entries" then 3
  else if sync_type = "full" then 6
  else if sync_type = "metadata" then 3
  else if sync_type = "time_entries_only" then 3
  else 1

def estimated_calls (sync_type : String) (time_entries_days : Int) : Nat :=
  let base := base_calls sync_type
  if (sync_type = "time_entries" ∨ sync_type = "time_entries_only" ∨ sync_type = "full")
      ∧ 0 < time_entries_days then
    let estimated_entries : Int := time_entries_days * 3
    let pagination_calls : Int := max 1 ((estimated_entries + 49).fdiv 50)
    let pagination_capped : Int := min pagination_calls 50
    base + pagination_capped.toNat
  else base

def rateLimitMessage (e : Nat) (time_entries_days : Int) : String :=
  "Sync would require ~" ++ toString e ++
    " API calls, exceeding free plan limit of 30/hour. Try reducing time range to " ++
    toString (min 30 (time_entries_days.fdiv 2)) ++ " days or upgrade to Premium plan."

/-- `_validate_rate_limits`: raises iff the estimate exceeds the safety
threshold of 25 (under the nominal 30/hour free-plan budget). -/
def validate_rate_limits (sync_type : String) (time_entries_days : Int) : Except String Unit :=
  let e := estimated_calls sync_type time_entries_days
  if 25 < e then .error (rateLimitMessage e time_entries_days)
  else .ok ()

/-! ## Sync orchestration: one `SyncLog` per operation -/

def mkRunningLog (w : Int) (ty : String) (now : Int) (rs re : Option Int) : SLog :=
  { workspace_id := w, sync_type := ty, status := "running", start_time := now,
    records_processed := 0, records_added := 0, records_updated := 0,
    error_message := none, date_range_start := rs, date_range_end := re }

def completeLog (l : SLog) (c : Counts) : SLog :=
  { l with
    status := "completed",
    records_processed := c.processed,
    records_added := c.added,
    records_updated := c.updated }

def failLog (l : SLog) (msg : String) : SLog :=
  { l with status := "failed", error_message := some msg }

/-- Shared shape of `sync_clients` / `sync_projects` / `sync_members`
(sync_service.py lines 76-313) at the log level: commit a `running` row,
perform the remote fetch and upsert, then mark the same row `completed`
with the counts, or `failed` with the error message and re-raise. -/
def syncEntityLog (logs : List SLog) (w : Int) (ty : String) (now : Int)
    (fetch : Except String Counts) : List SLog × Except String SLog :=
  let run := mkRunningLog w ty now none none
  match fetch with
  | .ok c => (logs ++ [completeLog run c], .ok (completeLog run c))
  | .error m => (logs ++ [failLog run m], .error m)

def sync_clients (logs : List SLog) (w now : Int) (r : Remote) :
    List SLog × Except String SLog :=
  syncEntityLog logs w "clients" now r.clientsR

def sync_projects (logs : List SLog) (w now : Int) (r : Remote) :
    List SLog × Except String SLog :=
  syncEntityLog logs w "projects" now r.projectsR

def sync_members (logs : List SLog) (w now : Int) (r : Remote) :
    List SLog × Except String SLog :=
  syncEntityLog logs w "members" now r.membersR

/-- `sync_time_entries` (sync_service.py lines 315-434): validates the rate
budget first — before the `running` row is committed and before any remote
call — then commits the `running` row carrying the date range and performs
the fetch/upsert. -/
def sync_time_entries (logs : List SLog) (w now : Int) (r : Remote)
    (start_date end_date : Int) : List SLog × Except String SLog :=
  match validate_rate_limits "time_entries" (end_date - start_date) with
  | .error m => (logs, .error m)
  | .ok _ =>
    let run := mkRunningLog w "time_entries" now (some start_date) (some end_date)
    match r.timeEntriesR start_date end_date with
    | .ok c => (logs ++ [completeLog run c], .ok (completeLog run c))
    | .error m => (logs ++ [failLog run m], .error m)

/-- `sync_metadata` (sync_service.py lines 480-519): clients, then projects,
then members, aborting on the first failure. -/
def sync_metadata (logs : List SLog) (w now : Int) (r : Remote) :
    List SLog × Except String (List SLog) :=
  match validate_rate_limits "metadata" 0 with
  | .error m => (logs, .error m)
  | .ok _ =>
    match sync_clients logs w now r with
    | (logs1, .error m) => (logs1, .error m)
    | (logs1, .ok l1) =>
      match sync_projects logs1 w now r with
      | (logs2, .error m) => (logs2, .error m)
      | (logs2, .ok l2) =>
        match sync_members logs2 w now r with
        | (logs3, .error m) => (logs3, .error m)
        | (logs3, .ok l3) => (logs3, .ok [l1, l2, l3])

/-- `full_sync` (sync_service.py lines 436-478): validates the `full`
budget up front, then runs clients → projects → members → time entries
over `[today - days, today]`, aborting on the first failure. -/
def full_sync (logs : List SLog) (w today now : Int) (r : Remote)
    (time_entries_days : Int) : List SLog × Except String (List SLog) :=
  match validate_rate_limits "full" time_entries_days with
  | .error m => (logs, .error m)
  | .ok _ =>
    match sync_clients logs w now r with
    | (logs1, .error m) => (logs1, .error m)
    | (logs1, .ok l1) =>
      match sync_projects logs1 w now r with
      | (logs2, .error m) => (logs2, .error m)
      | (logs2, .ok l2) =>
        match sync_members logs2 w now r with
        | (logs3, .error m) => (logs3, .error m)
        | (logs3, .ok l3) =>
          match sync_time_entries logs3 w now r (today - time_entries_days) today with
          | (logs4, .error m) => (logs4, .error m)
          | (logs4, .ok l4) => (logs4, .ok [l1, l2, l3, l4])

/-! ## Chunked historical sync

Embeds `get_next_historical_chunks`, `safe_chunked_historical_sync` and
`chunked_historical_sync` (sync_service.py lines 550-792). -/

structure ChunkInfo where
  chunk_index : Nat
  start_date : Int
  end_date : Int
  days : Int
  deriving Repr, DecidableEq

/-- `total_chunks = (total_days + chunk_size - 1) // chunk_size`. -/
def totalChunkCount (total_days chunk_size : Nat) : Nat :=
  (total_days + chunk_size - 1) / chunk_size

/-- Python `set.add`. -/
def listInsertSet (s : List Nat) (x : Nat) : List Nat :=
  if x ∈ s then s else s ++ [x]

/-- The query filter of `get_next_historical_chunks` (lines 750-756). -/
def qualifiesLog (w : Int) (l : SLog) : Bool :=
  l.workspace_id = w ∧ l.sync_type = "time_entries" ∧ l.status = "completed" ∧
    l.date_range_start.isSome ∧ l.date_range_end.isSome

/-- The set of completed chunk indices derived from the log (lines 758-764):
`chunk_index = (today - date_range_end).days // chunk_size`, kept when
`0 ≤ chunk_index < total_chunks`. -/
def completedChunks (logs : List SLog) (w today : Int) (total_days chunk_size : Nat) :
    List Nat :=
  logs.foldl (fun s l =>
    if qualifiesLog w l then
      match l.date_range_end with
      | some re =>
        let days_from_today : Int := today - re
        let ci : Int := days_from_today.fdiv chunk_size
        if 0 ≤ ci ∧ ci < totalChunkCount total_days chunk_size then
          listInsertSet s ci.toNat
        else s
      | none => s
    else s) []

/-- The date window of chunk `i` (lines 770-781). -/
def chunkInfoFor (today : Int) (total_days chunk_size : Nat) (i : Nat) : ChunkInfo :=
  let chunk_start_pos : Int := i * chunk_size
  let chunk_end_pos : Int := min (chunk_start_pos + chunk_size - 1) ((total_days : Int) - 1)
  { chunk_index := i,
    start_date := today - chunk_end_pos,
    end_date := today - chunk_start_pos,
    days := chunk_end_pos - chunk_start_pos + 1 }

/-- The chunk-selection loop of `get_next_historical_chunks` (lines
767-784): scan chunk indices in increasing order, pick ones not yet
completed, and stop as soon as `chunks_to_get` have been collected
(the check runs after the append, so `chunks_to_get = 0` still yields
one chunk, as in the source). -/
def pickChunksAux (completed : List Nat) (today : Int)
    (total_days chunk_size chunks_to_get : Nat) :
    List Nat → List ChunkInfo → List ChunkInfo
  | [], acc => acc
  | i :: rest, acc =>
    if i ∈ completed then
      pickChunksAux completed today total_days chunk_size chunks_to_get rest acc
    else
      let acc2 := acc ++ [chunkInfoFor today total_days chunk_size i]
      if chunks_to_get ≤ acc2.length then acc2
      else pickChunksAux completed today total_days chunk_size chunks_to_get rest acc2

structure NextChunks where
  chunks_to_process : List ChunkInfo
  chunks_completed : Nat
  total_chunks : Nat
  is_first_chunk : Bool
  progress_percentage : ℚ
  deriving Repr, DecidableEq

def get_next_historical_chunks (logs : List SLog) (w today : Int)
    (total_days chunk_size chunks_to_get : Nat) : NextChunks :=
  let tc := totalChunkCount total_days chunk_size
  let completed := completedChunks logs w today total_days chunk_size
  { chunks_to_process :=
      pickChunksAux completed today total_days chunk_size chunks_to_get (List.range tc) [],
    chunks_completed := completed.length,
    total_chunks := tc,
    is_first_chunk := completed.length = 0,
    progress_percentage := if 0 < tc then (completed.length : ℚ) / (tc : ℚ) * 100 else 0 }

/-- The failed row the chunk loops commit in their `except` branch
(lines 601-613 and 696-708). -/
def mkChunkFailedLog (w now : Int) (msg : String) (c : ChunkInfo) : SLog :=
  { workspace_id := w, sync_type := "time_entries", status := "failed", start_time := now,
    records_processed := 0, records_added := 0, records_updated := 0,
    error_message := some msg, date_range_start := some c.start_date,
    date_range_end := some c.end_date }

/-- The chunk loop of `safe_chunked_historical_sync` (lines 674-712):
validate, sync, append the completed log; on failure commit a failed row
and STOP (`break`).  Returns (database, this invocation's result list,
chunks processed). -/
def processChunksStop (w now : Int) (r : Remote) :
    List SLog → List ChunkInfo → List SLog × List SLog × Nat
  | logs, [] => (logs, [], 0)
  | logs, c :: rest =>
    match validate_rate_limits "time_entries" (c.end_date - c.start_date + 1) with
    | .error m =>
      let fl := mkChunkFailedLog w now m c
      (logs ++ [fl], [fl], 0)
    | .ok _ =>
      match sync_time_entries logs w now r c.start_date c.end_date with
      | (logs2, .ok cl) =>
        let res := processChunksStop w now r logs2 rest
        (res.1, cl :: res.2.1, res.2.2 + 1)
      | (logs2, .error m) =>
        let fl := mkChunkFailedLog w now m c
        (logs2 ++ [fl], [fl], 0)

/-- The chunk loop of `chunked_historical_sync` (lines 578-617): identical
except that on failure it commits the failed row and CONTINUES with the
next chunk. -/
def processChunksCont (w now : Int) (r : Remote) :
    List SLog → List ChunkInfo → List SLog × List SLog
  | logs, [] => (logs, [])
  | logs, c :: rest =>
    match validate_rate_limits "time_entries" (c.end_date - c.start_date + 1) with
    | .error m =>
      let fl := mkChunkFailedLog w now m c
      let res := processChunksCont w now r (logs ++ [fl]) rest
      (res.1, fl :: res.2)
    | .ok _ =>
      match sync_time_entries logs w now r c.start_date c.end_date with
      | (logs2, .ok cl) =>
        let res := processChunksCont w now r logs2 rest
        (res.1, cl :: res.2)
      | (logs2, .error m) =>
        let fl := mkChunkFailedLog w now m c
        let res := processChunksCont w now r (logs2 ++ [fl]) rest
        (res.1, fl :: res.2)

/-- The chunk windows `chunked_historical_sync` iterates over
(`range(0, total_days, chunk_size)`, lines 578-583). -/
def chunkInfosFor (today : Int) (total_days chunk_size : Nat) : List ChunkInfo :=
  (List.range (totalChunkCount total_days chunk_size)).map
    (chunkInfoFor today total_days chunk_size)

def chunked_historical_sync (logs : List SLog) (w today now : Int) (r : Remote)
    (total_days chunk_size : Nat) : List SLog × Except String (List SLog) :=
  match sync_metadata logs w now r with
  | (logs1, .error m) => (logs1, .error m)
  | (logs1, .ok metaLogs) =>
    let res := processChunksCont w now r logs1 (chunkInfosFor today total_days chunk_size)
    (res.1, .ok (metaLogs ++ res.2))

structure SafeResult where
  status : String
  message : String
  chunks_processed : Nat
  chunks_remaining : Nat
  total_chunks : Nat
  sync_logs : List SLog
  deriving Repr, DecidableEq

def safe_chunked_historical_sync (logs : List SLog) (w today now : Int) (r : Remote)
    (total_days chunk_size chunks_per_call : Nat) : List SLog × SafeResult :=
  let nc := get_next_historical_chunks logs w today total_days chunk_size chunks_per_call
  if nc.chunks_to_process.isEmpty then
    (logs, { status := "completed", message := "All chunks have been processed",
             chunks_processed := 0, chunks_remaining := 0,
             total_chunks := nc.total_chunks, sync_logs := [] })
  else
    match (if nc.is_first_chunk then sync_metadata logs w now r else (logs, .ok [])) with
    | (logs1, .error m) =>
      (logs1, { status := "failed", message := "Metadata sync failed: " ++ m,
                chunks_processed := 0,
                chunks_remaining := nc.chunks_to_process.length,
                total_chunks := nc.total_chunks, sync_logs := [] })
    | (logs1, .ok metaLogs) =>
      let res := processChunksStop w now r logs1 nc.chunks_to_process
      let chunks_processed := res.2.2
      let remaining : Nat :=
        ((nc.total_chunks : Int) - (nc.chunks_completed : Int) - (chunks_processed : Int)).toNat
      (res.1,
       { status := if 0 < remaining then "in_progress" else "completed",
         message := "Processed " ++ toString chunks_processed ++ " chunk(s). " ++
           toString remaining ++ " remaining.",
         chunks_processed := chunks_processed,
         chunks_remaining := remaining,
         total_chunks := nc.total_chunks,
         sync_logs := metaLogs ++ res.2.1 })

/-! ## The start endpoint's conflict check

Embeds `get_sync_status` (sync_service.py lines 794-807) restricted to
`limit=1` — the single most recent log by `start_time` — and the check in
`start_sync` (backend/app/api/sync.py lines 113-163) up to the commit of
the chosen sync's own `running` row. -/

def get_sync_status_first (logs : List SLog) (w : Int) : Option SLog :=
  (logs.filter (fun l => l.workspace_id = w)).foldl
    (fun acc l =>
      match acc with
      | none => some l
      | some m => if m.start_time < l.start_time then some l else some m) none

def start_sync_conflict (logs : List SLog) (w : Int) : Bool :=
  match get_sync_status_first logs w with
  | some l => l.status = "running"
  | none => false

/-- `start_sync`: reject with HTTP 409 when the conflict check trips
(committing nothing), otherwise dispatch the requested sync, whose first
action commits a `running` row. -/
def start_sync_request (logs : List SLog) (w now : Int) (ty : String) :
    Nat × List SLog :=
  if start_sync_conflict logs w then (409, logs)
  else (202, logs ++ [mkRunningLog w ty now none none])

def runningCount (logs : List SLog) (w : Int) : Nat :=
  (logs.filter (fun l => l.workspace_id = w ∧ l.status = "running")).length

/-! ## Entity upsert layer

Embeds the reconcile-by-`toggl_id` loops of `sync_clients` /
`sync_projects` / `sync_members` / `sync_time_entries` (sync_service.py
lines 102-128, 178-217, 267-291, 353-412).  All four loops share one
shape — query the store by the remote `toggl_id` (`.first()`), update the
found row's mutable fields, or `session.add` a new row — which
`upsertRun` captures; the per-entity field logic lives in each
instantiation's `mkNew`/`upd` functions below.

The session is configured with `autoflush=False`, so the membership query
during a run sees only the rows committed before the run (`base`);
`session.add`ed rows are `pending` and reach the store at the final
commit.  Local primary keys are assigned from a `nextId` counter. -/

structure UpsertState (ρ : Type) where
  store : List ρ
  pending : List ρ
  nextId : Int
  added : Nat
  updated : Nat

structure UpsertResult (ρ : Type) where
  store : List ρ
  nextId : Int
  processed : Nat
  added : Nat
  updated : Nat

/-- Mutate the first row matching the key, as `.first()` followed by
attribute assignment does. -/
def updateFirstBy (key : ρ → Int) (k : Int) (f : ρ → ρ) : List ρ → List ρ
  | [] => []
  | r :: rest => if key r = k then f r :: rest else r :: updateFirstBy key k f rest

def upsertStep (key : ρ → Int) (tkey : τ → Int) (mkNew : Int → τ → ρ) (upd : ρ → τ → ρ)
    (base : List ρ) (st : UpsertState ρ) (t : τ) : UpsertState ρ :=
  if base.any (fun r => key r = tkey t) then
    { st with
      store := updateFirstBy key (tkey t) (fun r => upd r t) st.store,
      updated := st.updated + 1 }
  else
    { st with
      pending := st.pending ++ [mkNew st.nextId t],
      nextId := st.nextId + 1,
      added := st.added + 1 }

def upsertRun (key : ρ → Int) (tkey : τ → Int) (mkNew : Int → τ → ρ) (upd : ρ → τ → ρ)
    (store : List ρ) (nextId : Int) (fetched : List τ) : UpsertResult ρ :=
  let fin := fetched.foldl (upsertStep key tkey mkNew upd store)
    { store := store, pending := [], nextId := nextId, added := 0, updated := 0 }
  { store := fin.store ++ fin.pending, nextId := fin.nextId,
    processed := fetched.length, added := fin.added, updated := fin.updated }

/-- The remote `Client` dataclass (enhanced_client.py lines 20-28). -/
structure TClient where
  id : Int
  name : String
  workspace_id : Int
  notes : Option String
  external_reference : Option String
  archived : Bool
  deriving Repr, DecidableEq

/-- The `clients` ORM row (models.py lines 14-33); `rid` is the local
primary key, audit timestamps dropped. -/
structure DbClient where
  rid : Int
  toggl_id : Int
  name : String
  notes : Option String
  external_reference : Option String
  archived : Bool
  workspace_id : Int
  deriving Repr, DecidableEq

def mkNewClient (nid : Int) (t : TClient) : DbClient :=
  { rid := nid, toggl_id := t.id, name := t.name, notes := t.notes,
    external_reference := t.external_reference, archived := t.archived,
    workspace_id := t.workspace_id }

def updClient (r : DbClient) (t : TClient) : DbClient :=
  { r with
    name := t.name,
    notes := t.notes,
    external_reference := t.external_reference,
    archived := t.archived,
    workspace_id := t.workspace_id }

/-- The upsert loop of `sync_clients` (sync_service.py lines 102-128). -/
def sync_clients_upsert (store : List DbClient) (nextId : Int) (fetched : List TClient) :
    UpsertResult DbClient :=
  upsertRun (fun r => r.toggl_id) (fun t => t.id) mkNewClient updClient store nextId fetched

/-- The remote `Project` dataclass (enhanced_client.py lines 31-42). -/
structure TProject where
  id : Int
  name : String
  workspace_id : Int
  client_id : Option Int
  billable : Bool
  is_private : Bool
  active : Bool
  color : Option String
  deriving Repr, DecidableEq

structure DbProject where
  rid : Int
  toggl_id : Int
  name : String
  client_id : Option Int
  workspace_id : Int
  billable : Bool
  is_private : Bool
  active : Bool
  color : Option String
  deriving Repr, DecidableEq

/-- `if toggl_project.client_id: local_client = query(Client).filter(
Client.toggl_id == ...).first(); if local_client: ... .id`
(sync_service.py lines 180-186); a Python falsy id (None or 0) skips the
lookup, and an unresolved reference degrades to no client. -/
def resolveLocalClientId (clientStore : List DbClient) (tcid : Option Int) : Option Int :=
  match tcid with
  | some cid =>
    if cid ≠ 0 then (clientStore.find? (fun c => c.toggl_id = cid)).map (fun c => c.rid)
    else none
  | none => none

def mkNewProject (clientStore : List DbClient) (nid : Int) (t : TProject) : DbProject :=
  { rid := nid, toggl_id := t.id, name := t.name,
    client_id := resolveLocalClientId clientStore t.client_id,
    workspace_id := t.workspace_id, billable := t.billable,
    is_private := t.is_private, active := t.active, color := t.color }

def updProject (clientStore : List DbClient) (r : DbProject) (t : TProject) : DbProject :=
  { r with
    name := t.name,
    client_id := resolveLocalClientId clientStore t.client_id,
    workspace_id := t.workspace_id,
    billable := t.billable,
    is_private := t.is_private,
    active := t.active,
    color := t.color }

/-- The upsert loop of `sync_projects` (sync_service.py lines 178-217). -/
def sync_projects_upsert (clientStore : List DbClient) (store : List DbProject)
    (nextId : Int) (fetched : List TProject) : UpsertResult DbProject :=
  upsertRun (fun r => r.toggl_id) (fun t => t.id)
    (mkNewProject clientStore) (updProject clientStore) store nextId fetched

/-- A workspace-users dict entry after the `.get` defaults of
`sync_members` are applied (sync_service.py lines 267-291). -/
structure TUser where
  id : Int
  name : String
  email : Option String
  active : Bool
  deriving Repr, DecidableEq

structure DbMember where
  rid : Int
  toggl_id : Int
  name : String
  email : Option String
  workspace_id : Int
  active : Bool
  deriving Repr, DecidableEq

def mkNewMember (w : Int) (nid : Int) (t : TUser) : DbMember :=
  { rid := nid, toggl_id := t.id, name := t.name, email := t.email,
    workspace_id := w, active := t.active }

def updMember (w : Int) (r : DbMember) (t : TUser) : DbMember :=
  { r with
    name := t.name,
    email := t.email,
    workspace_id := w,
    active := t.active }

/-- The upsert loop of `sync_members` (sync_service.py lines 267-291). -/
def sync_members_upsert (w : Int) (store : List DbMember) (nextId : Int)
    (fetched : List TUser) : UpsertResult DbMember :=
  upsertRun (fun r => r.toggl_id) (fun t => t.id)
    (mkNewMember w) (updMember w) store nextId fetched

/-- The remote `TimeEntry` dataclass (enhanced_client.py lines 45-61) with
the ISO timestamp strings already parsed to abstract instants (the
`datetime.fromisoformat` calls of sync_service.py lines 364-367). -/
structure TEntry where
  id : Int
  description : String
  duration : Int
  start : Int
  stop : Option Int
  user_id : Int
  user_name : String
  project_id : Option Int
  project_name : Option String
  workspace_id : Int
  billable : Bool
  tags : Option (List String)
  client_id : Option Int
  client_name : Option String
  deriving Repr, DecidableEq

structure DbTimeEntry where
  rid : Int
  toggl_id : Int
  description : String
  duration : Int
  start_time : Int
  stop_time : Option Int
  user_id : Int
  user_name : String
  project_id : Option Int
  project_name : Option String
  client_id : Option Int
  client_name : Option String
  workspace_id : Int
  billable : Bool
  tags : Option (List String)
  sync_date : Int
  deriving Repr, DecidableEq

/-- Local project id resolution of `sync_time_entries`
(sync_service.py lines 355-361). -/
def resolveLocalProjectId (projectStore : List DbProject) (tpid : Option Int) : Option Int :=
  match tpid with
  | some pid =>
    if pid ≠ 0 then (projectStore.find? (fun p => p.toggl_id = pid)).map (fun p => p.rid)
    else none
  | none => none

def mkNewTimeEntry (projectStore : List DbProject) (today : Int) (nid : Int)
    (t : TEntry) : DbTimeEntry :=
  { rid := nid, toggl_id := t.id, description := t.description, duration := t.duration,
    start_time := t.start, stop_time := t.stop, user_id := t.user_id,
    user_name := t.user_name,
    project_id := resolveLocalProjectId projectStore t.project_id,
    project_name := t.project_name, client_id := t.client_id,
    client_name := t.client_name, workspace_id := t.workspace_id,
    billable := t.billable, tags := t.tags, sync_date := today }

def updTimeEntry (projectStore : List DbProject) (today : Int) (r : DbTimeEntry)
    (t : TEntry) : DbTimeEntry :=
  { r with
    description := t.description,
    duration := t.duration,
    start_time := t.start,
    stop_time := t.stop,
    user_id := t.user_id,
    user_name := t.user_name,
    project_id := resolveLocalProjectId projectStore t.project_id,
    project_name := t.project_name,
    client_id := t.client_id,
    client_name := t.client_name,
    workspace_id := t.workspace_id,
    billable := t.billable,
    tags := t.tags,
    sync_date := today }

/-- The upsert loop of `sync_time_entries` (sync_service.py lines 353-412). -/
def sync_time_entries_upsert (projectStore : List DbProject) (today : Int)
    (store : List DbTimeEntry) (nextId : Int) (fetched : List TEntry) :
    UpsertResult DbTimeEntry :=
  upsertRun (fun r => r.toggl_id) (fun t => t.id)
    (mkNewTimeEntry projectStore today) (updTimeEntry projectStore today) store nextId fetched

/-! ## Client enrichment: project → client mapping

Embeds `_build_client_project_mapping` (enhanced_client.py lines 405-442)
and the per-entry client resolution of the direct Reports-API path (lines
500-507) and of the per-member fallback path (lines 564-571).  Python
dicts are association lists with overwrite-on-insert. -/

def dictInsert {β : Type} (m : List (Int × β)) (k : Int) (v : β) : List (Int × β) :=
  if m.any (fun kv => kv.1 = k) then
    m.map (fun kv => if kv.1 = k then (k, v) else kv)
  else m ++ [(k, v)]

def dictGet {β : Type} (m : List (Int × β)) (k : Int) : Option β :=
  (m.find? (fun kv => kv.1 = k)).map (fun kv => kv.2)

structure ClientInfo where
  client_id : Option Int
  client_name : String
  deriving Repr, DecidableEq

def noClientInfo : ClientInfo := { client_id := none, client_name := "No Client" }

/-- `client_lookup = {client.id: client for client in clients}` (line 420). -/
def clientLookupDict (clients : List TClient) : List (Int × TClient) :=
  clients.foldl (fun m c => dictInsert m c.id c) []

/-- Lines 424-436: `if client_id and client_id in client_lookup` attaches
the client's id and name, otherwise the `No Client` sentinel. -/
def projectClientInfo (lookup : List (Int × TClient)) (p : TProject) : ClientInfo :=
  match p.client_id with
  | some cid =>
    if cid ≠ 0 then
      match dictGet lookup cid with
      | some c => { client_id := some c.id, client_name := c.name }
      | none => noClientInfo
    else noClientInfo
  | none => noClientInfo

def build_client_project_mapping (projects : List TProject) (clients : List TClient) :
    List (Int × ClientInfo) :=
  let lookup := clientLookupDict clients
  projects.foldl (fun m p => dictInsert m p.id (projectClientInfo lookup p)) []

/-- Direct path (lines 500-507):
`client_mapping.get(project_id, {'client_id': None, 'client_name': 'No Client'})`;
an entry with no project id reads the dict at `None`, which is never a key. -/
def directClientInfo (mapping : List (Int × ClientInfo)) (project_id : Option Int) :
    ClientInfo :=
  match project_id with
  | some pid => (dictGet mapping pid).getD noClientInfo
  | none => noClientInfo

/-- Fallback path (lines 564-571):
`if entry.project_id and entry.project_id in client_mapping` assigns the
mapping's info, else the sentinel. -/
def fallbackClientInfo (mapping : List (Int × ClientInfo)) (project_id : Option Int) :
    ClientInfo :=
  match project_id with
  | some pid =>
    if pid ≠ 0 then
      match dictGet mapping pid with
      | some info => info
      | none => noClientInfo
    else noClientInfo
  | none => noClientInfo

/-! ## Lemmas about the upsert engine -/

theorem updateFirstBy_length {ρ : Type} (key : ρ → Int) (k : Int) (f : ρ → ρ) :
    ∀ l : List ρ, (updateFirstBy key k f l).length = l.length := by
  intro l
  induction l with
  | nil => rfl
  | cons r rest ih =>
    unfold updateFirstBy
    split <;> simp [ih]

theorem updateFirstBy_map_key {ρ : Type} (key : ρ → Int) (k : Int) (f : ρ → ρ)
    (hf : ∀ r, key (f r) = key r) :
    ∀ l : List ρ, (updateFirstBy key k f l).map key = l.map key := by
  intro l
  induction l with
  | nil => rfl
  | cons r rest ih =>
    unfold updateFirstBy
    split <;> simp [ih, hf]

theorem upsert_foldl_all_update {ρ τ : Type} (key : ρ → Int) (tkey : τ → Int)
    (mkNew : Int → τ → ρ) (upd : ρ → τ → ρ) (base : List ρ) :
    ∀ (fetched : List τ) (st : UpsertState ρ),
      (∀ t ∈ fetched, base.any (fun r => key r = tkey t) = true) →
      (fetched.foldl (upsertStep key tkey mkNew upd base) st).added = st.added ∧
      (fetched.foldl (upsertStep key tkey mkNew upd base) st).pending = st.pending ∧
      (fetched.foldl (upsertStep key tkey mkNew upd base) st).updated =
        st.updated + fetched.length ∧
      (fetched.foldl (upsertStep key tkey mkNew upd base) st).store.length =
        st.store.length := by
  intro fetched
  induction fetched with
  | nil => intro st _; simp
  | cons t rest ih =>
    intro st h
    have ht : base.any (fun r => key r = tkey t) = true := h t (by simp)
    have hrest : ∀ u ∈ rest, base.any (fun r => key r = tkey u) = true :=
      fun u hu => h u (by simp [hu])
    have hstep : upsertStep key tkey mkNew upd base st t =
        { st with
          store := updateFirstBy key (tkey t) (fun r => upd r t) st.store,
          updated := st.updated + 1 } := by
      simp [upsertStep, ht]
    simp only [List.foldl_cons, hstep]
    obtain ⟨h1, h2, h3, h4⟩ := ih _ hrest
    refine ⟨h1, h2, ?_, ?_⟩
    · simp only [h3]
      simp
      omega
    · simp only [h4]
      simp [updateFirstBy_length]

theorem upsert_foldl_pending_mem {ρ τ : Type} (key : ρ → Int) (tkey : τ → Int)
    (mkNew : Int → τ → ρ) (upd : ρ → τ → ρ) (base : List ρ) :
    ∀ (fetched : List τ) (st : UpsertState ρ) (p : ρ), p ∈ st.pending →
      p ∈ (fetched.foldl (upsertStep key tkey mkNew upd base) st).pending := by
  intro fetched
  induction fetched with
  | nil => intro st p hp; simpa using hp
  | cons t rest ih =>
    intro st p hp
    simp only [List.foldl_cons]
    apply ih
    unfold upsertStep
    split
    · exact hp
    · simp [hp]

theorem upsert_foldl_pending_covers {ρ τ : Type} (key : ρ → Int) (tkey : τ → Int)
    (mkNew : Int → τ → ρ) (upd : ρ → τ → ρ)
    (hmk : ∀ n t, key (mkNew n t) = tkey t) (base : List ρ) :
    ∀ (fetched : List τ) (st : UpsertState ρ) (t : τ), t ∈ fetched →
      base.any (fun r => key r = tkey t) = false →
      ∃ p ∈ (fetched.foldl (upsertStep key tkey mkNew upd base) st).pending,
        key p = tkey t := by
  intro fetched
  induction fetched with
  | nil => intro st t ht; simp at ht
  | cons u rest ih =>
    intro st t ht hbase
    simp only [List.foldl_cons]
    rcases List.mem_cons.mp ht with heq | hmem
    · subst heq
      have hstep : (upsertStep key tkey mkNew upd base st t).pending =
          st.pending ++ [mkNew st.nextId t] := by
        simp [upsertStep, hbase]
      refine ⟨mkNew st.nextId t, ?_, hmk _ _⟩
      apply upsert_foldl_pending_mem
      rw [hstep]
      simp
    · exact ih _ t hmem hbase

theorem upsert_foldl_store_map {ρ τ : Type} (key : ρ → Int) (tkey : τ → Int)
    (mkNew : Int → τ → ρ) (upd : ρ → τ → ρ)
    (hupd : ∀ r t, key (upd r t) = key r) (base : List ρ) :
    ∀ (fetched : List τ) (st : UpsertState ρ),
      ((fetched.foldl (upsertStep key tkey mkNew upd base) st).store).map key =
        st.store.map key := by
  intro fetched
  induction fetched with
  | nil => intro st; rfl
  | cons t rest ih =>
    intro st
    simp only [List.foldl_cons]
    rw [ih]
    unfold upsertStep
    split
    · simp [updateFirstBy_map_key key (tkey t) _ (fun r => hupd r t)]
    · rfl

theorem upsertRun_covers {ρ τ : Type} (key : ρ → Int) (tkey : τ → Int)
    (mkNew : Int → τ → ρ) (upd : ρ → τ → ρ)
    (hmk : ∀ n t, key (mkNew n t) = tkey t)
    (hupd : ∀ r t, key (upd r t) = key r)
    (store : List ρ) (nid : Int) (fetched : List τ) :
    ∀ t ∈ fetched,
      (upsertRun key tkey mkNew upd store nid fetched).store.any
        (fun r => key r = tkey t) = true := by
  intro t ht
  unfold upsertRun
  dsimp only
  rw [List.any_append, Bool.or_eq_true]
  by_cases hb : store.any (fun r => key r = tkey t) = true
  · left
    have hmap := upsert_foldl_store_map key tkey mkNew upd hupd store fetched
      { store := store, pending := [], nextId := nid, added := 0, updated := 0 }
    rw [List.any_eq_true] at hb ⊢
    obtain ⟨r, hr, hkr⟩ := hb
    have hkmem : tkey t ∈ (fetched.foldl (upsertStep key tkey mkNew upd store)
        { store := store, pending := [], nextId := nid, added := 0, updated := 0 }).store.map key := by
      rw [hmap]
      simp only [List.mem_map]
      exact ⟨r, hr, by simpa using hkr⟩
    obtain ⟨r2, hr2, hkr2⟩ := List.mem_map.mp hkmem
    exact ⟨r2, hr2, by simpa using hkr2⟩
  · right
    have := upsert_foldl_pending_covers key tkey mkNew upd hmk store fetched
      { store := store, pending := [], nextId := nid, added := 0, updated := 0 } t ht
      (by simpa using hb)
    obtain ⟨p, hp, hkp⟩ := this
    rw [List.any_eq_true]
    exact ⟨p, hp, by simpa using hkp⟩

theorem upsert_run_twice {ρ τ : Type} (key : ρ → Int) (tkey : τ → Int)
    (mkNew : Int → τ → ρ) (upd : ρ → τ → ρ)
    (hmk : ∀ n t, key (mkNew n t) = tkey t)
    (hupd : ∀ r t, key (upd r t) = key r)
    (store : List ρ) (nid : Int) (fetched : List τ) :
    (upsertRun key tkey mkNew upd (upsertRun key tkey mkNew upd store nid fetched).store
        (upsertRun key tkey mkNew upd store nid fetched).nextId fetched).added = 0 ∧
    (upsertRun key tkey mkNew upd (upsertRun key tkey mkNew upd store nid fetched).store
        (upsertRun key tkey mkNew upd store nid fetched).nextId fetched).updated =
      fetched.length ∧
    (upsertRun key tkey mkNew upd (upsertRun key tkey mkNew upd store nid fetched).store
        (upsertRun key tkey mkNew upd store nid fetched).nextId fetched).store.length =
      (upsertRun key tkey mkNew upd store nid fetched).store.length := by
  have hcov := upsertRun_covers key tkey mkNew upd hmk hupd store nid fetched
  set r1 := upsertRun key tkey mkNew upd store nid fetched with hr1
  obtain ⟨h1, h2, h3, h4⟩ := upsert_foldl_all_update key tkey mkNew upd
    r1.store fetched
    { store := r1.store, pending := [], nextId := r1.nextId,
      added := 0, updated := 0 } hcov
  refine ⟨?_, ?_, ?_⟩
  · unfold upsertRun
    simpa using h1
  · unfold upsertRun
    simpa using h3
  · unfold upsertRun
    dsimp only
    rw [List.length_append, h2, h4]
    simp

/-- C2 (amended). Upsert re-entrance: for each of the four entity syncs,
re-running the sync against the identical remote result set yields
`records_added = 0` on the second run, `records_updated` equal to the
number of fetched records, and an unchanged number of rows in the local
store.  Matching is by the remote `toggl_id` (visible in the `key`
functions of the four instantiations), never by position.  (The first
run's `records_updated` equals the count of fetched records whose
`toggl_id` already existed, so it matches the second run's only when the
data was already fully present — see the counterexample.) -/
theorem entity_sync_second_run_idempotent :
    (∀ (store : List DbClient) (nid : Int) (fetched : List TClient),
      (sync_clients_upsert (sync_clients_upsert store nid fetched).store
          (sync_clients_upsert store nid fetched).nextId fetched).added = 0 ∧
      (sync_clients_upsert (sync_clients_upsert store nid fetched).store
          (sync_clients_upsert store nid fetched).nextId fetched).updated = fetched.length ∧
      (sync_clients_upsert (sync_clients_upsert store nid fetched).store
          (sync_clients_upsert store nid fetched).nextId fetched).store.length =
        (sync_clients_upsert store nid fetched).store.length) ∧
    (∀ (cstore : List DbClient) (store : List DbProject) (nid : Int)
        (fetched : List TProject),
      (sync_projects_upsert cstore (sync_projects_upsert cstore store nid fetched).store
          (sync_projects_upsert cstore store nid fetched).nextId fetched).added = 0 ∧
      (sync_projects_upsert cstore (sync_projects_upsert cstore store nid fetched).store
          (sync_projects_upsert cstore store nid fetched).nextId fetched).updated =
        fetched.length ∧
      (sync_projects_upsert cstore (sync_projects_upsert cstore store nid fetched).store
          (sync_projects_upsert cstore store nid fetched).nextId fetched).store.length =
        (sync_projects_upsert cstore store nid fetched).store.length) ∧
    (∀ (w : Int) (store : List DbMember) (nid : Int) (fetched : List TUser),
      (sync_members_upsert w (sync_members_upsert w store nid fetched).store
          (sync_members_upsert w store nid fetched).nextId fetched).added = 0 ∧
      (sync_members_upsert w (sync_members_upsert w store nid fetched).store
          (sync_members_upsert w store nid fetched).nextId fetched).updated =
        fetched.length ∧
      (sync_members_upsert w (sync_members_upsert w store nid fetched).store
          (sync_members_upsert w store nid fetched).nextId fetched).store.length =
        (sync_members_upsert w store nid fetched).store.length) ∧
    (∀ (pstore : List DbProject) (today : Int) (store : List DbTimeEntry) (nid : Int)
        (fetched : List TEntry),
      (sync_time_entries_upsert pstore today
          (sync_time_entries_upsert pstore today store nid fetched).store
          (sync_time_entries_upsert pstore today store nid fetched).nextId fetched).added = 0 ∧
      (sync_time_entries_upsert pstore today
          (sync_time_entries_upsert pstore today store nid fetched).store
          (sync_time_entries_upsert pstore today store nid fetched).nextId fetched).updated =
        fetched.length ∧
      (sync_time_entries_upsert pstore today
          (sync_time_entries_upsert pstore today store nid fetched).store
          (sync_time_entries_upsert pstore today store nid fetched).nextId fetched).store.length =
        (sync_time_entries_upsert pstore today store nid fetched).store.length) := by
  refine ⟨?_, ?_, ?_, ?_⟩
  · intro store nid fetched
    simp only [sync_clients_upsert]
    exact upsert_run_twice (fun r : DbClient => r.toggl_id) (fun t : TClient => t.id)
      mkNewClient updClient (fun _ _ => rfl) (fun _ _ => rfl) store nid fetched
  · intro cstore store nid fetched
    simp only [sync_projects_upsert]
    exact upsert_run_twice (fun r : DbProject => r.toggl_id) (fun t : TProject => t.id)
      (mkNewProject cstore) (updProject cstore)
      (fun _ _ => rfl) (fun _ _ => rfl) store nid fetched
  · intro w store nid fetched
    simp only [sync_members_upsert]
    exact upsert_run_twice (fun r : DbMember => r.toggl_id) (fun t : TUser => t.id)
      (mkNewMember w) (updMember w)
      (fun _ _ => rfl) (fun _ _ => rfl) store nid fetched
  · intro pstore today store nid fetched
    simp only [sync_time_entries_upsert]
    exact upsert_run_twice (fun r : DbTimeEntry => r.toggl_id) (fun t : TEntry => t.id)
      (mkNewTimeEntry pstore today) (updTimeEntry pstore today)
      (fun _ _ => rfl) (fun _ _ => rfl) store nid fetched

/-- C2 counterexample: starting from an empty store, the first
`sync_clients` run reports `updated = 0` (everything is added) while the
identical second run reports `updated = 1`, so the second run's
`records_updated` is NOT "the same records_updated count as the first" as
the claim states. -/
theorem entity_sync_updated_counterexample :
    (sync_clients_upsert [] 1 [⟨7, "acme", 1, none, none, false⟩]).added = 1 ∧
    (sync_clients_upsert [] 1 [⟨7, "acme", 1, none, none, false⟩]).updated = 0 ∧
    (sync_clients_upsert (sync_clients_upsert [] 1 [⟨7, "acme", 1, none, none, false⟩]).store
        (sync_clients_upsert [] 1 [⟨7, "acme", 1, none, none, false⟩]).nextId
        [⟨7, "acme", 1, none, none, false⟩]).added = 0 ∧
    (sync_clients_upsert (sync_clients_upsert [] 1 [⟨7, "acme", 1, none, none, false⟩]).store
        (sync_clients_upsert [] 1 [⟨7, "acme", 1, none, none, false⟩]).nextId
        [⟨7, "acme", 1, none, none, false⟩]).updated = 1 ∧
    (sync_clients_upsert [] 1 [⟨7, "acme", 1, none, none, false⟩]).updated ≠
      (sync_clients_upsert (sync_clients_upsert [] 1 [⟨7, "acme", 1, none, none, false⟩]).store
        (sync_clients_upsert [] 1 [⟨7, "acme", 1, none, none, false⟩]).nextId
        [⟨7, "acme", 1, none, none, false⟩]).updated := by
  refine ⟨rfl, rfl, rfl, rfl, by decide⟩

/-! ## Lemmas about the dict model and the no-client sentinel -/

theorem dictGet_overwriteMap {β : Type} (k : Int) (v : β) :
    ∀ m : List (Int × β),
      dictGet (m.map (fun kv => if kv.1 = k then (k, v) else kv)) k =
        if m.any (fun kv => kv.1 = k) then some v else none := by
  intro m
  induction m with
  | nil => simp [dictGet]
  | cons kv rest ih =>
    by_cases hk : kv.1 = k
    · simp only [List.map_cons, if_pos hk]
      simp [dictGet, List.find?_cons_of_pos, hk]
    · simp only [List.map_cons, if_neg hk]
      unfold dictGet
      rw [List.find?_cons_of_neg _ (by simpa using hk)]
      unfold dictGet at ih
      have hdk : (decide (kv.1 = k)) = false := by simpa using hk
      rw [ih, List.any_cons, hdk, Bool.false_or]

theorem dictGet_dictInsert_same {β : Type} (m : List (Int × β)) (k : Int) (v : β) :
    dictGet (dictInsert m k v) k = some v := by
  unfold dictInsert
  split
  · rename_i h
    rw [dictGet_overwriteMap, if_pos h]
  · rename_i h
    have hnone : List.find? (fun kv => kv.1 = k) m = none := by
      rw [List.find?_eq_none]
      intro kv hkv hpkv
      exact h (List.any_eq_true.mpr ⟨kv, hkv, hpkv⟩)
    unfold dictGet
    rw [List.find?_append, hnone]
    simp [List.find?]

theorem find?_overwriteMap_other {β : Type} (k2 k : Int) (v : β) (h : k2 ≠ k) :
    ∀ m : List (Int × β),
      List.find? (fun kv => kv.1 = k) (m.map (fun kv => if kv.1 = k2 then (k2, v) else kv)) =
        List.find? (fun kv => kv.1 = k) m := by
  intro m
  induction m with
  | nil => rfl
  | cons kv rest ih =>
    by_cases hk2 : kv.1 = k2
    · simp only [List.map_cons, if_pos hk2]
      rw [List.find?_cons_of_neg _ (by simp [h]),
        List.find?_cons_of_neg _ (by simp [hk2, h])]
      exact ih
    · simp only [List.map_cons, if_neg hk2]
      by_cases hk : kv.1 = k
      · rw [List.find?_cons_of_pos _ (by simpa using hk),
          List.find?_cons_of_pos _ (by simpa using hk)]
      · rw [List.find?_cons_of_neg _ (by simpa using hk),
          List.find?_cons_of_neg _ (by simpa using hk)]
        exact ih

theorem dictGet_dictInsert_other {β : Type} (m : List (Int × β)) (k2 k : Int) (v : β)
    (h : k2 ≠ k) : dictGet (dictInsert m k2 v) k = dictGet m k := by
  unfold dictInsert
  split
  · unfold dictGet
    rw [find?_overwriteMap_other k2 k v h m]
  · unfold dictGet
    rw [List.find?_append]
    have h1 : List.find? (fun kv => kv.1 = k) [(k2, v)] = none := by
      simp [List.find?, h]
    rw [h1]
    cases List.find? (fun kv => decide (kv.1 = k)) m <;> rfl

theorem dictGet_foldl_insert_prop {α β : Type} (P : β → Prop) (f : α → Int) (g : α → β) :
    ∀ (l : List α) (m : List (Int × β)) (k : Int),
      (∀ v, dictGet m k = some v → P v) →
      (∀ a ∈ l, f a = k → P (g a)) →
      ∀ v, dictGet (l.foldl (fun acc a => dictInsert acc (f a) (g a)) m) k = some v → P v := by
  intro l
  induction l with
  | nil => intro m k hm _ v hv; exact hm v hv
  | cons a rest ih =>
    intro m k hm hl v hv
    simp only [List.foldl_cons] at hv
    refine ih (dictInsert m (f a) (g a)) k ?_ (fun b hb hfb => hl b (by simp [hb]) hfb) v hv
    intro u hu
    by_cases hfa : f a = k
    · rw [hfa, dictGet_dictInsert_same] at hu
      cases hu
      exact hl a (by simp) hfa
    · rw [dictGet_dictInsert_other m (f a) k (g a) hfa] at hu
      exact hm u hu

/-- C10. No-client sentinel: a fetched time entry whose project has no
associated client (its `client_id` is `None`, Python-falsy `0`, or not in
the workspace's client catalogue), or that carries no project id at all,
resolves to `client_id = None` / `client_name = "No Client"` — both on the
direct Reports-API path and on the per-member fallback path.  (An entry
whose project id is absent from the mapping also resolves to the sentinel:
take `projects` not containing it, making the hypothesis vacuous.) -/
theorem no_client_sentinel (projects : List TProject) (clients : List TClient) (pid : Int)
    (h : ∀ p ∈ projects, p.id = pid →
      p.client_id = none ∨ p.client_id = some 0 ∨
        (∀ cid, p.client_id = some cid → dictGet (clientLookupDict clients) cid = none)) :
    directClientInfo (build_client_project_mapping projects clients) (some pid) =
      noClientInfo ∧
    fallbackClientInfo (build_client_project_mapping projects clients) (some pid) =
      noClientInfo ∧
    directClientInfo (build_client_project_mapping projects clients) none = noClientInfo ∧
    fallbackClientInfo (build_client_project_mapping projects clients) none = noClientInfo := by
  have hP : ∀ v, dictGet (build_client_project_mapping projects clients) pid = some v →
      v = noClientInfo := by
    intro v hv
    unfold build_client_project_mapping at hv
    refine dictGet_foldl_insert_prop (fun v => v = noClientInfo)
      (fun p : TProject => p.id)
      (fun p => projectClientInfo (clientLookupDict clients) p)
      projects [] pid ?_ ?_ v hv
    · intro u hu
      simp [dictGet, List.find?] at hu
    · intro p hp hid
      rcases h p hp hid with h1 | h1 | h1
      · simp [projectClientInfo, h1]
      · simp [projectClientInfo, h1]
      · cases hcid : p.client_id with
        | none => simp [projectClientInfo, hcid]
        | some cid =>
          by_cases hz : cid = 0
          · simp [projectClientInfo, hcid, hz]
          · simp [projectClientInfo, hcid, hz, h1 cid hcid]
  refine ⟨?_, ?_, rfl, rfl⟩
  · unfold directClientInfo
    cases hg : dictGet (build_client_project_mapping projects clients) pid with
    | none => simp [hg]
    | some v => simp [hg, hP v hg]
  · unfold fallbackClientInfo
    by_cases hz : pid = 0
    · simp [hz]
    · cases hg : dictGet (build_client_project_mapping projects clients) pid with
      | none => simp [hz, hg]
      | some v => simp [hz, hg, hP v hg]

/-- C10 witness: one project with no client, an empty client catalogue,
and an entry pointing at that project. -/
theorem no_client_sentinel_witness :
    directClientInfo
      (build_client_project_mapping [⟨1, "site", 9, none, false, false, true, none⟩] [])
      (some 1) = noClientInfo ∧
    fallbackClientInfo
      (build_client_project_mapping [⟨1, "site", 9, none, false, false, true, none⟩] [])
      (some 1) = noClientInfo ∧
    directClientInfo
      (build_client_project_mapping [⟨1, "site", 9, none, false, false, true, none⟩] [])
      none = noClientInfo ∧
    fallbackClientInfo
      (build_client_project_mapping [⟨1, "site", 9, none, false, false, true, none⟩] [])
      none = noClientInfo := by
  refine no_client_sentinel [⟨1, "site", 9, none, false, false, true, none⟩] [] 1 ?_
  intro p hp _
  simp only [List.mem_singleton] at hp
  subst hp
  left
  rfl

/-! ## Lemmas about chunk selection and the chunk loops -/

theorem pickChunksAux_eq (completed : List Nat) (today : Int)
    (td cs ctg : Nat) :
    ∀ (is : List Nat) (acc : List ChunkInfo), acc.length < ctg →
      pickChunksAux completed today td cs ctg is acc =
        acc ++ ((is.filter (fun i => i ∉ completed)).take (ctg - acc.length)).map
          (chunkInfoFor today td cs) := by
  intro is
  induction is with
  | nil => intro acc _; simp [pickChunksAux]
  | cons i rest ih =>
    intro acc hacc
    unfold pickChunksAux
    by_cases hic : i ∈ completed
    · rw [if_pos hic]
      rw [ih acc hacc]
      have : (List.filter (fun i => decide (i ∉ completed)) (i :: rest)) =
          List.filter (fun i => decide (i ∉ completed)) rest := by
        simp [List.filter_cons, hic]
      rw [this]
    · rw [if_neg hic]
      have hfil : (List.filter (fun i => decide (i ∉ completed)) (i :: rest)) =
          i :: List.filter (fun i => decide (i ∉ completed)) rest := by
        simp [List.filter_cons, hic]
      rw [hfil]
      obtain ⟨m, hm⟩ : ∃ m, ctg - acc.length = m + 1 := ⟨ctg - acc.length - 1, by omega⟩
      rw [hm, List.take_succ_cons]
      by_cases hend : ctg ≤ (acc ++ [chunkInfoFor today td cs i]).length
      · rw [if_pos hend]
        have hm0 : m = 0 := by
          simp at hend
          omega
        subst hm0
        simp
      · rw [if_neg hend]
        rw [ih _ (by simp at hend ⊢; omega)]
        have : ctg - (acc ++ [chunkInfoFor today td cs i]).length = m := by
          simp
          omega
        rw [this]
        simp

theorem pickChunksAux_all_completed (completed : List Nat) (today : Int)
    (td cs ctg : Nat) :
    ∀ (is : List Nat) (acc : List ChunkInfo), (∀ i ∈ is, i ∈ completed) →
      pickChunksAux completed today td cs ctg is acc = acc := by
  intro is
  induction is with
  | nil => intro acc _; rfl
  | cons i rest ih =>
    intro acc h
    unfold pickChunksAux
    rw [if_pos (h i (by simp))]
    exact ih acc (fun j hj => h j (by simp [hj]))

theorem completedChunks_of_no_qualify (logs : List SLog) (w today : Int)
    (td cs : Nat) (h : ∀ l ∈ logs, qualifiesLog w l = false) :
    completedChunks logs w today td cs = [] := by
  unfold completedChunks
  have : ∀ (ls : List SLog) (s : List Nat), (∀ l ∈ ls, qualifiesLog w l = false) →
      ls.foldl (fun s l =>
        if qualifiesLog w l then
          match l.date_range_end with
          | some re =>
            let days_from_today : Int := today - re
            let ci : Int := days_from_today.fdiv cs
            if 0 ≤ ci ∧ ci < totalChunkCount td cs then listInsertSet s ci.toNat else s
          | none => s
        else s) s = s := by
    intro ls
    induction ls with
    | nil => intro s _; rfl
    | cons l rest ih =>
      intro s hs
      simp only [List.foldl_cons]
      rw [if_neg (by simp [hs l (by simp)])]
      exact ih s (fun l2 hl2 => hs l2 (by simp [hl2]))
  exact this logs [] h

theorem safe_chunked_no_chunks (logs : List SLog) (w today now : Int) (r : Remote)
    (td cs cpc : Nat)
    (h : (get_next_historical_chunks logs w today td cs cpc).chunks_to_process = []) :
    safe_chunked_historical_sync logs w today now r td cs cpc =
      (logs, { status := "completed", message := "All chunks have been processed",
               chunks_processed := 0, chunks_remaining := 0,
               total_chunks := totalChunkCount td cs, sync_logs := [] }) := by
  unfold safe_chunked_historical_sync
  simp only [h]
  rfl

/-- The completed `SyncLog` row `sync_time_entries` leaves for a chunk. -/
def chunkCompletedLog (w now : Int) (c : ChunkInfo) (cnt : Counts) : SLog :=
  completeLog (mkRunningLog w "time_entries" now (some c.start_date) (some c.end_date)) cnt

/-- The failed row `sync_time_entries` itself commits when the remote
fetch raises (distinct from the extra failed row the chunk loop adds). -/
def chunkInnerFailedLog (w now : Int) (c : ChunkInfo) (m : String) : SLog :=
  failLog (mkRunningLog w "time_entries" now (some c.start_date) (some c.end_date)) m

def remoteFailFirst : Remote :=
  { clientsR := .ok ⟨0, 0, 0⟩, projectsR := .ok ⟨0, 0, 0⟩, membersR := .ok ⟨0, 0, 0⟩,
    timeEntriesR := fun sd _ => if sd = 971 then .error "boom" else .ok ⟨0, 0, 0⟩ }

/-- C6 counterexample: `chunked_historical_sync` over 60 days in 30-day
chunks with the remote failing on the first (most recent) chunk.  The
failed rows for chunk `[971, 1000]` are committed, and the invocation then
STILL attempts the second chunk `[941, 970]` — the result list ends with a
completed `time_entries` row dated after the failure — contradicting "no
chunk after the first failed one is attempted in that invocation".
(The claim's sources include `chunked_historical_sync`, whose `except`
branch ends in `continue`, sync_service.py line 617.) -/
theorem chunk_failure_counterexample :
    chunked_historical_sync [] 5 1000 7 remoteFailFirst 60 30 =
      ([{ workspace_id := 5, sync_type := "clients", status := "completed", start_time := 7,
          records_processed := 0, records_added := 0, records_updated := 0,
          error_message := none, date_range_start := none, date_range_end := none },
        { workspace_id := 5, sync_type := "projects", status := "completed", start_time := 7,
          records_processed := 0, records_added := 0, records_updated := 0,
          error_message := none, date_range_start := none, date_range_end := none },
        { workspace_id := 5, sync_type := "members", status := "completed", start_time := 7,
          records_processed := 0, records_added := 0, records_updated := 0,
          error_message := none, date_range_start := none, date_range_end := none },
        { workspace_id := 5, sync_type := "time_entries", status := "failed", start_time := 7,
          records_processed := 0, records_added := 0, records_updated := 0,
          error_message := some "boom", date_range_start := some 971,
          date_range_end := some 1000 },
        { workspace_id := 5, sync_type := "time_entries", status := "failed", start_time := 7,
          records_processed := 0, records_added := 0, records_updated := 0,
          error_message := some "boom", date_range_start := some 971,
          date_range_end := some 1000 },
        { workspace_id := 5, sync_type := "time_entries", status := "completed", start_time := 7,
          records_processed := 0, records_added := 0, records_updated := 0,
          error_message := none, date_range_start := some 941, date_range_end := some 970 }],
       .ok [{ workspace_id := 5, sync_type := "clients", status := "completed", start_time := 7,
              records_processed := 0, records_added := 0, records_updated := 0,
              error_message := none, date_range_start := none, date_range_end := none },
            { workspace_id := 5, sync_type := "projects", status := "completed", start_time := 7,
              records_processed := 0, records_added := 0, records_updated := 0,
              error_message := none, date_range_start := none, date_range_end := none },
            { workspace_id := 5, sync_type := "members", status := "completed", start_time := 7,
              records_processed := 0, records_added := 0, records_updated := 0,
              error_message := none, date_range_start := none, date_range_end := none },
            { workspace_id := 5, sync_type := "time_entries", status := "failed", start_time := 7,
              records_processed := 0, records_added := 0, records_updated := 0,
              error_message := some "boom", date_range_start := some 971,
              date_range_end := some 1000 },
            { workspace_id := 5, sync_type := "time_entries", status := "completed",
              start_time := 7, records_processed := 0, records_added := 0,
              records_updated := 0, error_message := none, date_range_start := some 941,
              date_range_end := some 970 }]) := by
  rfl

theorem processChunksStop_cons_fail (w now : Int) (r : Remote) (logs : List SLog)
    (c : ChunkInfo) (rest : List ChunkInfo) (m : String)
    (hcv : validate_rate_limits "time_entries" (c.end_date - c.start_date + 1) = .ok ())
    (hcv2 : validate_rate_limits "time_entries" (c.end_date - c.start_date) = .ok ())
    (hcf : r.timeEntriesR c.start_date c.end_date = .error m) :
    processChunksStop w now r logs (c :: rest) =
      (logs ++ [chunkInnerFailedLog w now c m, mkChunkFailedLog w now m c],
       [mkChunkFailedLog w now m c], 0) := by
  conv_lhs => unfold processChunksStop
  rw [hcv]
  unfold sync_time_entries
  rw [hcv2, hcf]
  simp [chunkInnerFailedLog]

theorem processChunksStop_cons_ok (w now : Int) (r : Remote) (logs : List SLog)
    (c : ChunkInfo) (rest : List ChunkInfo) (k : Counts)
    (hv1 : validate_rate_limits "time_entries" (c.end_date - c.start_date + 1) = .ok ())
    (hv2 : validate_rate_limits "time_entries" (c.end_date - c.start_date) = .ok ())
    (hok : r.timeEntriesR c.start_date c.end_date = .ok k) :
    processChunksStop w now r logs (c :: rest) =
      ((processChunksStop w now r (logs ++ [chunkCompletedLog w now c k]) rest).1,
       chunkCompletedLog w now c k ::
         (processChunksStop w now r (logs ++ [chunkCompletedLog w now c k]) rest).2.1,
       (processChunksStop w now r (logs ++ [chunkCompletedLog w now c k]) rest).2.2 + 1) := by
  conv_lhs => unfold processChunksStop
  rw [hv1]
  unfold sync_time_entries
  rw [hv2, hok]
  simp [chunkCompletedLog]

theorem processChunksCont_cons_fail (w now : Int) (r : Remote) (logs : List SLog)
    (c : ChunkInfo) (rest : List ChunkInfo) (m : String)
    (hcv : validate_rate_limits "time_entries" (c.end_date - c.start_date + 1) = .ok ())
    (hcv2 : validate_rate_limits "time_entries" (c.end_date - c.start_date) = .ok ())
    (hcf : r.timeEntriesR c.start_date c.end_date = .error m) :
    processChunksCont w now r logs (c :: rest) =
      ((processChunksCont w now r
          (logs ++ [chunkInnerFailedLog w now c m, mkChunkFailedLog w now m c]) rest).1,
       mkChunkFailedLog w now m c ::
         (processChunksCont w now r
           (logs ++ [chunkInnerFailedLog w now c m, mkChunkFailedLog w now m c]) rest).2) := by
  conv_lhs => unfold processChunksCont
  rw [hcv]
  unfold sync_time_entries
  rw [hcv2, hcf]
  simp [chunkInnerFailedLog, List.append_assoc]

theorem processChunksCont_cons_ok (w now : Int) (r : Remote) (logs : List SLog)
    (c : ChunkInfo) (rest : List ChunkInfo) (k : Counts)
    (hv1 : validate_rate_limits "time_entries" (c.end_date - c.start_date + 1) = .ok ())
    (hv2 : validate_rate_limits "time_entries" (c.end_date - c.start_date) = .ok ())
    (hok : r.timeEntriesR c.start_date c.end_date = .ok k) :
    processChunksCont w now r logs (c :: rest) =
      ((processChunksCont w now r (logs ++ [chunkCompletedLog w now c k]) rest).1,
       chunkCompletedLog w now c k ::
         (processChunksCont w now r (logs ++ [chunkCompletedLog w now c k]) rest).2) := by
  conv_lhs => unfold processChunksCont
  rw [hv1]
  unfold sync_time_entries
  rw [hv2, hok]
  simp [chunkCompletedLog]

/-- C6 (amended). Per-chunk failure behaviour: when the `k`-th chunk's
time-entries sync raises (after `pre` chunks succeeded), both loops commit
a failed `SyncLog` carrying the error message and that chunk's date range
and leave all previously committed rows (`logs ++ pre`'s rows) unchanged;
`safe_chunked_historical_sync`'s loop then STOPS — no chunk after the first
failed one is attempted and `chunks_processed = pre.length` — while
`chunked_historical_sync`'s loop CONTINUES with the remaining chunks. -/
theorem chunk_failure_stop_and_continue (w now : Int) (r : Remote) (logs : List SLog)
    (pre post : List ChunkInfo) (c : ChunkInfo) (m : String) (cnt : ChunkInfo → Counts)
    (hprev : ∀ p ∈ pre,
      validate_rate_limits "time_entries" (p.end_date - p.start_date + 1) = .ok () ∧
      validate_rate_limits "time_entries" (p.end_date - p.start_date) = .ok () ∧
      r.timeEntriesR p.start_date p.end_date = .ok (cnt p))
    (hcv : validate_rate_limits "time_entries" (c.end_date - c.start_date + 1) = .ok ())
    (hcv2 : validate_rate_limits "time_entries" (c.end_date - c.start_date) = .ok ())
    (hcf : r.timeEntriesR c.start_date c.end_date = .error m) :
    processChunksStop w now r logs (pre ++ c :: post) =
      (logs ++ pre.map (fun p => chunkCompletedLog w now p (cnt p)) ++
        [chunkInnerFailedLog w now c m, mkChunkFailedLog w now m c],
       pre.map (fun p => chunkCompletedLog w now p (cnt p)) ++ [mkChunkFailedLog w now m c],
       pre.length) ∧
    processChunksCont w now r logs (pre ++ c :: post) =
      ((processChunksCont w now r
          (logs ++ pre.map (fun p => chunkCompletedLog w now p (cnt p)) ++
            [chunkInnerFailedLog w now c m, mkChunkFailedLog w now m c]) post).1,
       pre.map (fun p => chunkCompletedLog w now p (cnt p)) ++
         mkChunkFailedLog w now m c ::
           (processChunksCont w now r
             (logs ++ pre.map (fun p => chunkCompletedLog w now p (cnt p)) ++
               [chunkInnerFailedLog w now c m, mkChunkFailedLog w now m c]) post).2) := by
  induction pre generalizing logs with
  | nil =>
    rw [List.nil_append, processChunksStop_cons_fail w now r logs c post m hcv hcv2 hcf,
      processChunksCont_cons_fail w now r logs c post m hcv hcv2 hcf]
    simp
  | cons p pre ih =>
    have hrest : ∀ q ∈ pre,
        validate_rate_limits "time_entries" (q.end_date - q.start_date + 1) = .ok () ∧
        validate_rate_limits "time_entries" (q.end_date - q.start_date) = .ok () ∧
        r.timeEntriesR q.start_date q.end_date = .ok (cnt q) :=
      fun q hq => hprev q (by simp [hq])
    obtain ⟨hp1, hp2, hp3⟩ := hprev p (by simp)
    obtain ⟨ihs, ihc⟩ := ih (logs ++ [chunkCompletedLog w now p (cnt p)]) hrest
    constructor
    · rw [List.cons_append,
        processChunksStop_cons_ok w now r logs p (pre ++ c :: post) (cnt p) hp1 hp2 hp3,
        ihs]
      simp [List.append_assoc]
    · rw [List.cons_append,
        processChunksCont_cons_ok w now r logs p (pre ++ c :: post) (cnt p) hp1 hp2 hp3,
        ihc]
      simp [List.append_assoc]

def remoteFailSecond : Remote :=
  { clientsR := .ok ⟨0, 0, 0⟩, projectsR := .ok ⟨0, 0, 0⟩, membersR := .ok ⟨0, 0, 0⟩,
    timeEntriesR := fun sd _ => if sd = 941 then .error "kaput" else .ok ⟨9, 4, 5⟩ }

/-- C6 witness: one succeeded chunk, then a failing chunk, with one more
chunk pending. -/
theorem chunk_failure_stop_and_continue_witness :
    processChunksStop 5 7 remoteFailSecond []
        ([⟨0, 971, 1000, 30⟩] ++ ⟨1, 941, 970, 30⟩ :: [⟨2, 911, 940, 30⟩]) =
      ([] ++ [⟨0, 971, 1000, 30⟩].map
          (fun p => chunkCompletedLog 5 7 p ((fun _ => (⟨9, 4, 5⟩ : Counts)) p)) ++
        [chunkInnerFailedLog 5 7 ⟨1, 941, 970, 30⟩ "kaput",
         mkChunkFailedLog 5 7 "kaput" ⟨1, 941, 970, 30⟩],
       [⟨0, 971, 1000, 30⟩].map
          (fun p => chunkCompletedLog 5 7 p ((fun _ => (⟨9, 4, 5⟩ : Counts)) p)) ++
         [mkChunkFailedLog 5 7 "kaput" ⟨1, 941, 970, 30⟩],
       ([⟨0, 971, 1000, 30⟩] : List ChunkInfo).length) := by
  refine (chunk_failure_stop_and_continue 5 7 remoteFailSecond []
    [⟨0, 971, 1000, 30⟩] [⟨2, 911, 940, 30⟩] ⟨1, 941, 970, 30⟩ "kaput"
    (fun _ => ⟨9, 4, 5⟩) ?_ ?_ ?_ ?_).1
  · intro p hp
    simp only [List.mem_singleton] at hp
    subst hp
    refine ⟨rfl, rfl, rfl⟩
  · rfl
  · rfl
  · rfl

def remoteAllOk : Remote :=
  { clientsR := .ok ⟨0, 0, 0⟩, projectsR := .ok ⟨0, 0, 0⟩, membersR := .ok ⟨0, 0, 0⟩,
    timeEntriesR := fun _ _ => .ok ⟨0, 0, 0⟩ }

/-- The log state after two invocations with total_days=90, chunk_size=30
have each committed one completed time-entries chunk (chunk 0 covering
`[today-29, today]` and chunk 1 covering `[today-59, today-30]`, with
`today = 1000`). -/
def scenarioLogs90 : List SLog :=
  [{ workspace_id := 5, sync_type := "time_entries", status := "completed", start_time := 1,
     records_processed := 0, records_added := 0, records_updated := 0,
     error_message := none, date_range_start := some 971, date_range_end := some 1000 },
   { workspace_id := 5, sync_type := "time_entries", status := "completed", start_time := 2,
     records_processed := 0, records_added := 0, records_updated := 0,
     error_message := none, date_range_start := some 941, date_range_end := some 970 }]

def chunk2CompletedLog : SLog :=
  { workspace_id := 5
    sync_type := "time_entries"
    status := "completed"
    start_time := 77
    records_processed := 0
    records_added := 0
    records_updated := 0
    error_message := none
    date_range_start := some 911
    date_range_end := some 940 }

/-- C3. Resumption correctness.  Generally, the chunks a call selects are
exactly the lowest-indexed chunks whose index is not derived as completed
from the log, at most `chunks_to_get` of them — so no completed chunk is
ever re-processed and no incomplete one skipped.  Concretely, with
total_days=90, chunk_size=30 and completed logs for chunks 0 and 1, a
third `safe_chunked_historical_sync` call processes exactly the one
remaining chunk `[today-89, today-60]` and reports completion. -/
theorem resumption_correctness :
    (∀ (logs : List SLog) (w today : Int) (td cs ctg : Nat), 1 ≤ ctg →
      (get_next_historical_chunks logs w today td cs ctg).chunks_to_process =
        (((List.range (totalChunkCount td cs)).filter
            (fun i => i ∉ completedChunks logs w today td cs)).take ctg).map
          (chunkInfoFor today td cs)) ∧
    safe_chunked_historical_sync scenarioLogs90 5 1000 77 remoteAllOk 90 30 1 =
      (scenarioLogs90 ++ [chunk2CompletedLog],
       { status := "completed"
         message := "Processed 1 chunk(s). 0 remaining."
         chunks_processed := 1
         chunks_remaining := 0
         total_chunks := 3
         sync_logs := [chunk2CompletedLog] }) := by
  constructor
  · intro logs w today td cs ctg hctg
    unfold get_next_historical_chunks
    dsimp only
    rw [pickChunksAux_eq (completedChunks logs w today td cs) today td cs ctg
      (List.range (totalChunkCount td cs)) [] (by simpa using hctg)]
    simp
  · rfl

/-- C3 witness: the generic selection statement applied to the concrete
scenario state. -/
theorem resumption_correctness_witness :
    (1 : Nat) ≤ 1 ∧
    (get_next_historical_chunks scenarioLogs90 5 1000 90 30 1).chunks_to_process =
      (((List.range (totalChunkCount 90 30)).filter
          (fun i => i ∉ completedChunks scenarioLogs90 5 1000 90 30)).take 1).map
        (chunkInfoFor 1000 90 30) :=
  ⟨Nat.le_refl 1,
    resumption_correctness.1 scenarioLogs90 5 1000 90 30 1 (Nat.le_refl 1)⟩

/-- C7. Chunk accounting: the total chunk count is
`(total_days + chunk_size - 1) // chunk_size = ceil(total_days/chunk_size)`
(so 365/30 gives 13); with zero qualifying completed time-entries rows the
progress result has `is_first_chunk = true`; and once every chunk index is
derived as completed from the log, a further `safe_chunked_historical_sync`
call reports status `completed` with `chunks_remaining = 0`, processes no
chunk, and commits nothing. -/
theorem chunk_accounting :
    (∀ td cs : Nat, 0 < cs →
      ((totalChunkCount td cs : ℤ) = ⌈(td : ℚ) / (cs : ℚ)⌉)) ∧
    totalChunkCount 365 30 = 13 ∧
    (∀ (logs : List SLog) (w today : Int) (td cs ctg : Nat),
      (∀ l ∈ logs, qualifiesLog w l = false) →
      (get_next_historical_chunks logs w today td cs ctg).is_first_chunk = true) ∧
    (∀ (logs : List SLog) (w today now : Int) (r : Remote) (td cs cpc : Nat),
      (∀ i, i < totalChunkCount td cs → i ∈ completedChunks logs w today td cs) →
      safe_chunked_historical_sync logs w today now r td cs cpc =
        (logs, { status := "completed", message := "All chunks have been processed",
                 chunks_processed := 0, chunks_remaining := 0,
                 total_chunks := totalChunkCount td cs, sync_logs := [] })) := by
  refine ⟨?_, rfl, ?_, ?_⟩
  · intro td cs hcs
    unfold totalChunkCount
    have h := Nat.div_add_mod (td + cs - 1) cs
    have hr : (td + cs - 1) % cs < cs := Nat.mod_lt _ hcs
    set n := (td + cs - 1) / cs with hn
    have h1 : td ≤ cs * n := by omega
    have h2 : cs * n < td + cs := by omega
    have hcsq : (0 : ℚ) < (cs : ℚ) := by exact_mod_cast hcs
    rw [eq_comm, Int.ceil_eq_iff]
    constructor
    · rw [lt_div_iff₀ hcsq]
      have h2q : (cs : ℚ) * (n : ℚ) < (td : ℚ) + (cs : ℚ) := by exact_mod_cast h2
      push_cast
      nlinarith
    · rw [div_le_iff₀ hcsq]
      have h1q : (td : ℚ) ≤ (cs : ℚ) * (n : ℚ) := by exact_mod_cast h1
      push_cast
      nlinarith
  · intro logs w today td cs ctg h
    unfold get_next_historical_chunks
    dsimp only
    rw [completedChunks_of_no_qualify logs w today td cs h]
    rfl
  · intro logs w today now r td cs cpc h
    apply safe_chunked_no_chunks
    unfold get_next_historical_chunks
    dsimp only
    apply pickChunksAux_all_completed
    intro i hi
    exact h i (List.mem_range.mp hi)

/-- C7 witness: the scenario of the spec — 365 days in 30-day chunks is 13
chunks; an empty log is a first chunk; a log with completed rows for all
13 chunk indices makes a further call report completion and do nothing. -/
theorem chunk_accounting_witness :
    ((totalChunkCount 365 30 : ℤ) = ⌈(365 : ℚ) / (30 : ℚ)⌉) ∧
    (get_next_historical_chunks [] 5 1000 365 30 1).is_first_chunk = true ∧
    safe_chunked_historical_sync
        ((List.range 13).map (fun i =>
          { workspace_id := 5, sync_type := "time_entries", status := "completed",
            start_time := (i : Int), records_processed := 0, records_added := 0,
            records_updated := 0, error_message := none,
            date_range_start := some (1000 - 30 * (i : Int) - 29),
            date_range_end := some (1000 - 30 * (i : Int)) }))
        5 1000 77 remoteAllOk 365 30 1 =
      (((List.range 13).map (fun i =>
          { workspace_id := 5, sync_type := "time_entries", status := "completed",
            start_time := (i : Int), records_processed := 0, records_added := 0,
            records_updated := 0, error_message := none,
            date_range_start := some (1000 - 30 * (i : Int) - 29),
            date_range_end := some (1000 - 30 * (i : Int)) })),
       { status := "completed", message := "All chunks have been processed",
         chunks_processed := 0, chunks_remaining := 0,
         total_chunks := totalChunkCount 365 30, sync_logs := [] }) := by
  refine ⟨chunk_accounting.1 365 30 (by decide), ?_, ?_⟩
  · exact chunk_accounting.2.2.1 [] 5 1000 365 30 1 (by intro l hl; simp at hl)
  · exact chunk_accounting.2.2.2 _ 5 1000 77 remoteAllOk 365 30 1 (by decide)

/-- C4. Pre-flight rate-budget rejection: whenever the estimated API-call
count of a time-entries or full sync exceeds the safety threshold of 25,
the operation raises before anything happens — the log list is returned
unchanged (so no `running` row was committed) and the result does not
depend on the remote oracle (so no remote call was made: the right-hand
sides never consult `r`). -/
theorem preflight_rejection :
    (∀ (logs : List SLog) (w now : Int) (r : Remote) (sd ed : Int),
      25 < estimated_calls "time_entries" (ed - sd) →
      sync_time_entries logs w now r sd ed =
        (logs, .error (rateLimitMessage (estimated_calls "time_entries" (ed - sd)) (ed - sd)))) ∧
    (∀ (logs : List SLog) (w today now : Int) (r : Remote) (days : Int),
      25 < estimated_calls "full" days →
      full_sync logs w today now r days =
        (logs, .error (rateLimitMessage (estimated_calls "full" days) days))) := by
  constructor
  · intro logs w now r sd ed h
    unfold sync_time_entries validate_rate_limits
    simp [h]
  · intro logs w today now r days h
    unfold full_sync validate_rate_limits
    simp [h]

/-- C4 witness: a 400-day time-entries sync estimates 27 calls and a
400-day full sync estimates 30 calls; both are rejected with the log list
unchanged, independently of the oracle. -/
theorem preflight_rejection_witness :
    25 < estimated_calls "time_entries" ((400 : Int) - 0) ∧
    sync_time_entries [] 1 0 remoteAllOk 0 400 =
      ([], .error (rateLimitMessage (estimated_calls "time_entries" ((400 : Int) - 0))
        ((400 : Int) - 0))) ∧
    25 < estimated_calls "full" (400 : Int) ∧
    full_sync [] 1 1000 0 remoteAllOk 400 =
      ([], .error (rateLimitMessage (estimated_calls "full" (400 : Int)) (400 : Int))) :=
  ⟨by decide, preflight_rejection.1 [] 1 0 remoteAllOk 0 400 (by decide),
   by decide, preflight_rejection.2 [] 1 1000 0 remoteAllOk 400 (by decide)⟩

/-- The stale-running scenario: an older `running` row exists for the
workspace, but a newer (by `start_time`) completed row is the one the
`limit=1` query returns. -/
def staleRunningLog : SLog :=
  { workspace_id := 5
    sync_type := "full"
    status := "running"
    start_time := 10
    records_processed := 0
    records_added := 0
    records_updated := 0
    error_message := none
    date_range_start := none
    date_range_end := none }

def staleLogs : List SLog :=
  [staleRunningLog,
   { workspace_id := 5
     sync_type := "clients"
     status := "completed"
     start_time := 20
     records_processed := 0
     records_added := 0
     records_updated := 0
     error_message := none
     date_range_start := none
     date_range_end := none }]

/-- C8 counterexample: the workspace has an existing `running` attempt,
yet the start request is NOT rejected (HTTP 202, not 409), because the
check only inspects the single most recent log by `start_time`
(`get_sync_status(workspace_id, limit=1)`), and proceeding commits a
second `running` row. -/
theorem conflict_check_counterexample :
    runningCount staleLogs 5 = 1 ∧
    start_sync_conflict staleLogs 5 = false ∧
    (start_sync_request staleLogs 5 30 "clients").1 = 202 ∧
    runningCount (start_sync_request staleLogs 5 30 "clients").2 5 = 2 := by
  refine ⟨rfl, rfl, rfl, rfl⟩

/-- C8 (amended). Conflict rejection applies exactly when the single most
recent SyncLog for the workspace (ordered by `start_time` descending,
`limit 1`) has status `running`: then the start request returns HTTP 409
and commits no new row.  A `running` row that is not the most recent does
not block a new start (see the counterexample). -/
theorem conflict_rejection_most_recent (logs : List SLog) (w now : Int) (ty : String)
    (l : SLog) (hl : get_sync_status_first logs w = some l)
    (hs : l.status = "running") :
    start_sync_request logs w now ty = (409, logs) := by
  unfold start_sync_request start_sync_conflict
  rw [hl]
  simp [hs]

/-- C8 witness: a single running row is the most recent; the request is
rejected and nothing is committed. -/
theorem conflict_rejection_most_recent_witness :
    get_sync_status_first [staleRunningLog] 5 = some staleRunningLog ∧
    staleRunningLog.status = "running" ∧
    start_sync_request [staleRunningLog] 5 30 "clients" = (409, [staleRunningLog]) :=
  ⟨rfl, rfl,
    conflict_rejection_most_recent [staleRunningLog] 5 30 "clients" staleRunningLog rfl rfl⟩

end TogglSync
